import Mathlib

/-!
Verification of the OTVGfull binary reader (repository cpsdqs/tvg).

This file contains a shallow embedding of the decoder sources
(src/src/util.rs, src/src/layer.rs, src/src/palette.rs,
src/tvg/src/read.rs, src/tvg/src/pencil.rs) and settles the frozen
claims about them.

Modelling conventions:
* Byte streams are lists of natural numbers, one element per byte.
* Machine integers are natural numbers.  Where the Rust source can wrap
  silently (left shifts building a u32) the embedding writes an explicit
  % 2 ^ 32; where the Rust source performs checked subtraction that can
  underflow (debug assertions panic) the embedding returns a
  distinguished panic outcome.
* A reader is a state function Bytes → Except ReadError (α × Bytes).
  io::ErrorKind::UnexpectedEof maps to ReadError.ioEof.  Rust's
  Read::take(n) bounded view runs the inner parser on the first n bytes
  of the stream and afterwards returns the unread remainder of the
  window to the stream, exactly as the borrowed reader does.
* Loops that are not structurally recursive on a read count take
  explicit fuel; entry points pass fuel strictly larger than the number
  of iterations possible for the given stream, so the fuel-exhausted
  outcome is unreachable there.
* f32 fields are carried as their raw little-endian 32-bit patterns;
  the decoder never computes with them, it only moves them around.
-/

namespace Tvg

/-- Byte streams (and the Rust Bytes newtype): a list of byte values. -/
abbrev Bytes : Type := List Nat

/-- The error sum of the reader, mirroring enum ReadError in
src/tvg/src/read.rs (the src/src/read version differs only in a few
variant payload types).  ioEof stands for io::Error of kind
UnexpectedEof; ioInvalid for any other io::Error (produced only by the
zlib decoder).  panic is not a ReadError variant of the source: it
models a Rust checked-arithmetic panic (debug assertions), and fuelOut
models non-termination of a loop (never reached with adequate fuel). -/
inductive ReadError : Type
  | ioEof : ReadError
  | ioInvalid (msg : String) : ReadError
  | unexpectedMagic (m : Bytes) : ReadError
  | unexpectedVersion (v : Nat) : ReadError
  | unknownMystery (msg : String) : ReadError
  | unknownFileTag (t : Nat) : ReadError
  | unknownLayerTag (t : Nat) : ReadError
  | unknownShapeType (t : Nat) : ReadError
  | unknownComponentType (t : Nat) : ReadError
  | unknownComponentTag (t : Nat) : ReadError
  | unknownPaletteTag (t : Nat) : ReadError
  | unknownEncoding (t : Nat) : ReadError
  | cstringError (loc : String) : ReadError
  | utf8Error (loc : String) : ReadError
  | utf16Error (loc : String) : ReadError
  | panic (msg : String) : ReadError
  | fuelOut : ReadError
deriving DecidableEq, Repr

/-- A sequential byte reader: consumes a prefix of the stream and
returns a value together with the rest, or fails. -/
def M (α : Type) : Type := Bytes → Except ReadError (α × Bytes)

instance : Monad M where
  pure a := fun s => .ok (a, s)
  bind m f := fun s =>
    match m s with
    | .ok (a, s') => f a s'
    | .error e => .error e

/-- Unfolding lemma for pure of the reader monad. -/
theorem M.pure_apply (a : α) (s : Bytes) :
    (pure a : M α) s = .ok (a, s) := rfl

/-- Unfolding lemma for bind of the reader monad. -/
theorem M.bind_apply (m : M α) (f : α → M β) (s : Bytes) :
    (m >>= f) s =
      match m s with
      | .ok (a, s') => f a s'
      | .error e => .error e := rfl

/-- Fail with the given error (Rust return Err(e) / the ? operator). -/
def mthrow (e : ReadError) : M α := fun _ => .error e

/-- Read a single byte (byteorder read_u8); unexpected EOF on an empty
stream. -/
def readU8 : M Nat := fun s =>
  match s with
  | [] => .error .ioEof
  | b :: rest => .ok (b, rest)

/-- Read exactly n bytes (std read_exact).  On a short stream the
partial bytes are consumed and the read fails with unexpected EOF,
matching the default read_exact implementation over an in-memory
cursor. -/
def readExact (n : Nat) : M Bytes := fun s =>
  if n ≤ s.length then .ok (s.take n, s.drop n) else .error .ioEof

/-- Combine bytes little-endian: the head of the list is the least
significant byte. -/
def leNat (l : Bytes) : Nat := l.foldr (fun b acc => b + 256 * acc) 0

/-- Combine bytes big-endian: the head of the list is the most
significant byte. -/
def beNat (l : Bytes) : Nat := l.foldl (fun acc b => acc * 256 + b) 0

/-- byteorder read_u16::<LE>. -/
def readU16le : M Nat := do
  let b ← readExact 2
  pure (leNat b)

/-- byteorder read_u32::<LE>. -/
def readU32le : M Nat := do
  let b ← readExact 4
  pure (leNat b)

/-- byteorder read_u64::<LE>. -/
def readU64le : M Nat := do
  let b ← readExact 8
  pure (leNat b)

/-- byteorder read_u32::<BE> (used for the four-character tags). -/
def readU32be : M Nat := do
  let b ← readExact 4
  pure (beNat b)

/-- byteorder read_f32::<LE>, carried as the raw 32-bit pattern. -/
def readF32le : M Nat := readU32le

/-- Rust Read::take(n) bounded view: the inner parser sees only the
first n bytes; the unread remainder of the window returns to the
stream when the view is dropped. -/
def withTake (n : Nat) (p : M α) : M α := fun s =>
  match p (s.take n) with
  | .ok (a, w) => .ok (a, w ++ s.drop n)
  | .error e => .error e

/-- Read::read_to_end on a bounded view: consume the whole remainder. -/
def readToEnd : M Bytes := fun s => .ok (s, [])

/-- Checked u32 subtraction: Rust a - b panics on underflow (debug
assertions). -/
def checkedSub (a b : Nat) : M Nat :=
  if b ≤ a then pure (a - b) else mthrow (.panic ("attempt to subtract with overflow"))

/-- Little-endian encoding of a u32 value as four bytes
(inverse of leNat on four bytes). -/
def u32le (n : Nat) : Bytes :=
  [n % 256, n / 256 % 256, n / 65536 % 256, n / 16777216 % 256]

/-! ## TbQuant (src/src/util.rs lines 67-145)

The Toon Boom quantized 32-bit fixed-point format: sign bit 31, 8-bit
exponent in bits 30..23, fractional field left-justified in bits 22..0
holding saturating (exp - 0x79) significant bits. -/

/-- The TbQuant triple; neg/exp/frac are bool/u16/u32 in the source. -/
structure TbQuant : Type where
  neg : Bool
  exp : Nat
  frac : Nat
deriving DecidableEq, Repr

/-- TbQuant::ZERO, the canonical zero. -/
def TbQuant.zeroQ : TbQuant := ⟨false, 0, 0⟩

/-- TbQuant::decode.  Bit operations translated to arithmetic on the
assumption value < 2 ^ 32 (a u32): value & 0x8000_0000 != 0 becomes
value / 2 ^ 31 % 2 == 1, (value & 0x7F80_0000) >> 23 becomes
value / 2 ^ 23 % 2 ^ 8, value & 0x007F_FFFF becomes value % 2 ^ 23,
and the saturating subtractions are Nat subtraction (which saturates). -/
def TbQuant.decode (value : Nat) : TbQuant :=
  if value = 0 then TbQuant.zeroQ
  else
    let negative : Bool := value / 2 ^ 31 % 2 == 1
    let exponent := value / 2 ^ 23 % 2 ^ 8
    let f := value % 2 ^ 23
    let fBits := exponent - 0x79
    let frac := f / 2 ^ (23 - fBits)
    ⟨negative, exponent, frac⟩

/-- TbQuant::encode.  The u32 left shifts wrap silently in Rust, hence
the explicit % 2 ^ 32; the three fields are combined with bitwise or
exactly as in the source. -/
def TbQuant.encode (q : TbQuant) : Nat :=
  if q.exp = 0 ∧ q.frac = 0 then 0
  else
    let sign := if q.neg then 2 ^ 31 else 0
    let e := q.exp * 2 ^ 23 % 2 ^ 32
    let fBits := q.exp - 0x79
    let fr := q.frac * 2 ^ (23 - fBits) % 2 ^ 32
    sign ||| e ||| fr

/-- The noise-free condition of the spec: the fractional field holds
only the max(0, e - 0x79) significant bits, left-justified, i.e. the
bits of the fractional field below the quantum are zero. -/
def TbQuant.noiseFree (value : Nat) : Prop :=
  value % 2 ^ 23 % 2 ^ (23 - (value / 2 ^ 23 % 2 ^ 8 - 0x79)) = 0

instance (value : Nat) : Decidable (TbQuant.noiseFree value) := by
  unfold TbQuant.noiseFree; infer_instance

/-- Canonical triples: exactly those the decoder can produce, except
that the negative-zero triple (neg with zero exponent) is excluded.
The exponent is an 8-bit value and the fraction holds at most
min(exp - 0x79, 23) significant bits. -/
def TbQuant.canonical (q : TbQuant) : Prop :=
  q.exp < 2 ^ 8 ∧ q.frac < 2 ^ (min (q.exp - 0x79) 23) ∧ (q.exp = 0 → q.neg = false)

instance (q : TbQuant) : Decidable (TbQuant.canonical q) := by
  unfold TbQuant.canonical; infer_instance

end Tvg

namespace Tvg

/-! ### Arithmetic helpers for the TbQuant round-trip -/

/-- Disjoint bit fields combine by addition: sign bit, exponent field
(bits 23..30) and fractional field (bits 0..22) do not overlap. -/
theorem tb_or_eq_add (s e c : Nat) (hs : s = 0 ∨ s = 2 ^ 31)
    (he : e < 2 ^ 8) (hc : c < 2 ^ 23) :
    (s ||| e * 2 ^ 23 ||| c : Nat) = s + e * 2 ^ 23 + c := by
  have h1 : 2 ^ 23 * e + c = 2 ^ 23 * e ||| c := Nat.mul_add_lt_is_or hc e
  have h2 : 2 ^ 23 * e + c < 2 ^ 31 := by omega
  have h3 : 2 ^ 31 * 1 + (2 ^ 23 * e + c) = 2 ^ 31 * 1 ||| (2 ^ 23 * e + c) :=
    Nat.mul_add_lt_is_or h2 1
  rw [Nat.lor_assoc, Nat.mul_comm e (2 ^ 23), ← h1]
  rcases hs with rfl | rfl
  · rw [Nat.zero_or]; omega
  · rw [show (2 ^ 31 : Nat) = 2 ^ 31 * 1 by omega, ← h3]; omega

/-- A fraction of at most min(k, 23) significant bits, left-justified
into the 23-bit fractional field, stays below 2 ^ 23. -/
theorem frac_shift_lt (k fr : Nat) (h : fr < 2 ^ min k 23) :
    fr * 2 ^ (23 - k) < 2 ^ 23 := by
  rcases le_or_lt k 23 with hk | hk
  · rw [Nat.min_eq_left hk] at h
    calc fr * 2 ^ (23 - k) < 2 ^ k * 2 ^ (23 - k) :=
          mul_lt_mul_of_pos_right h (pow_pos (by norm_num) _)
      _ = 2 ^ 23 := by rw [← pow_add]; congr 1; omega
  · rw [Nat.min_eq_right (by omega)] at h
    rw [show 23 - k = 0 by omega]
    simpa using h

/-- Dropping the low (23 - k) bits of a 23-bit field leaves at most
min(k, 23) significant bits. -/
theorem div_shift_lt (k c : Nat) (hc : c < 2 ^ 23) :
    c / 2 ^ (23 - k) < 2 ^ min k 23 := by
  rcases le_or_lt k 23 with hk | hk
  · rw [Nat.min_eq_left hk]
    apply Nat.div_lt_of_lt_mul
    have hpow : (2 : Nat) ^ (23 - k) * 2 ^ k = 2 ^ 23 := by
      rw [← pow_add]; congr 1; omega
    rw [hpow]; exact hc
  · rw [Nat.min_eq_right (by omega), show 23 - k = 0 by omega]
    simpa using hc

/-- Encoding a triple with a nonzero 8-bit exponent and an in-range
fraction places the three fields at their bit positions. -/
theorem encode_fields (n : Bool) (e fr : Nat) (he : e < 2 ^ 8) (h1 : 1 ≤ e)
    (hfr : fr < 2 ^ min (e - 0x79) 23) :
    TbQuant.encode ⟨n, e, fr⟩ =
      (if n then 2 ^ 31 else 0) + e * 2 ^ 23 + fr * 2 ^ (23 - (e - 0x79)) := by
  have hc : fr * 2 ^ (23 - (e - 0x79)) < 2 ^ 23 := frac_shift_lt _ _ hfr
  simp only [TbQuant.encode]
  rw [if_neg (by omega : ¬ (e = 0 ∧ fr = 0))]
  rw [Nat.mod_eq_of_lt (show e * 2 ^ 23 < 2 ^ 32 by omega),
    Nat.mod_eq_of_lt (show fr * 2 ^ (23 - (e - 0x79)) < 2 ^ 32 by omega)]
  exact tb_or_eq_add _ e _ (by cases n <;> simp) he hc

/-- Decoding a value laid out as sign + exponent + 23-bit fractional
field recovers the three fields. -/
theorem decode_fields (n : Bool) (e c : Nat) (he : e < 2 ^ 8) (hc : c < 2 ^ 23)
    (h1 : 1 ≤ e) :
    TbQuant.decode ((if n then 2 ^ 31 else 0) + e * 2 ^ 23 + c) =
      ⟨n, e, c / 2 ^ (23 - (e - 0x79))⟩ := by
  cases n
  case false =>
    show TbQuant.decode (0 + e * 2 ^ 23 + c) = _
    have hne : 0 + e * 2 ^ 23 + c ≠ 0 := by omega
    simp only [TbQuant.decode, if_neg hne]
    have h31 : (0 + e * 2 ^ 23 + c) / 2 ^ 31 % 2 = 0 := by omega
    have h23 : (0 + e * 2 ^ 23 + c) / 2 ^ 23 % 2 ^ 8 = e := by omega
    have hf : (0 + e * 2 ^ 23 + c) % 2 ^ 23 = c := by omega
    rw [h31, h23, hf]
    rfl
  case true =>
    show TbQuant.decode (2 ^ 31 + e * 2 ^ 23 + c) = _
    have hne : 2 ^ 31 + e * 2 ^ 23 + c ≠ 0 := by omega
    simp only [TbQuant.decode, if_neg hne]
    have h31 : (2 ^ 31 + e * 2 ^ 23 + c) / 2 ^ 31 % 2 = 1 := by omega
    have h23 : (2 ^ 31 + e * 2 ^ 23 + c) / 2 ^ 23 % 2 ^ 8 = e := by omega
    have hf : (2 ^ 31 + e * 2 ^ 23 + c) % 2 ^ 23 = c := by omega
    rw [h31, h23, hf]
    rfl

/-- Round trip on triples with nonzero exponent: decode inverts encode. -/
theorem decode_encode_core (n : Bool) (e fr : Nat) (he : e < 2 ^ 8) (h1 : 1 ≤ e)
    (hfr : fr < 2 ^ min (e - 0x79) 23) :
    TbQuant.decode (TbQuant.encode ⟨n, e, fr⟩) = ⟨n, e, fr⟩ := by
  rw [encode_fields n e fr he h1 hfr]
  have hc : fr * 2 ^ (23 - (e - 0x79)) < 2 ^ 23 := frac_shift_lt _ _ hfr
  rw [decode_fields n e _ he hc h1]
  have hcancel : fr * 2 ^ (23 - (e - 0x79)) / 2 ^ (23 - (e - 0x79)) = fr :=
    Nat.mul_div_cancel fr (pow_pos (by norm_num) _)
  rw [hcancel]

end Tvg

namespace Tvg

/-- C2, counterexample: the raw value 0x80000000 (sign bit only) is
noise-free in the sense of the claim, yet encode(decode raw) = 0 and
decode(encode(decode raw)) is the canonical zero, which differs from
decode raw = the negative-zero triple.  Both conjuncts of the claim
fail at this input. -/
theorem C2_counterexample :
    TbQuant.noiseFree 0x80000000 ∧
    TbQuant.encode (TbQuant.decode 0x80000000) ≠ 0x80000000 ∧
    TbQuant.decode (TbQuant.encode (TbQuant.decode 0x80000000)) ≠
      TbQuant.decode 0x80000000 := by
  refine ⟨by decide, by decide, by decide⟩

/-- C2 (amended): for every u32 raw value without sub-quantum noise
other than 0x80000000 (negative zero, which decodes to the canonical
zero), encode(decode raw) = raw; and decode(encode(decode raw)) =
decode raw for every u32 raw value outside [2^31, 2^31 + 2^23) (the
sign-bit-with-zero-exponent values, all of which decode to the
negative-zero triple and re-decode to canonical zero). -/
theorem C2_tbquant_roundtrip :
    (∀ value : Nat, value < 2 ^ 32 → TbQuant.noiseFree value →
        value ≠ 0x80000000 →
        TbQuant.encode (TbQuant.decode value) = value) ∧
    (∀ value : Nat, value < 2 ^ 32 →
        ¬ (2 ^ 31 ≤ value ∧ value < 2 ^ 31 + 2 ^ 23) →
        TbQuant.decode (TbQuant.encode (TbQuant.decode value)) =
          TbQuant.decode value) := by
  constructor
  · intro v hv hnf hneg
    rcases Nat.eq_zero_or_pos v with rfl | hpos
    · rfl
    have hne : v ≠ 0 := by omega
    unfold TbQuant.noiseFree at hnf
    rcases Nat.eq_zero_or_pos (v / 2 ^ 23 % 2 ^ 8) with he0 | he1
    · exfalso
      rw [he0] at hnf
      norm_num at hnf
      omega
    · have hd : TbQuant.decode v =
          ⟨(v / 2 ^ 31 % 2 == 1), v / 2 ^ 23 % 2 ^ 8,
            v % 2 ^ 23 / 2 ^ (23 - (v / 2 ^ 23 % 2 ^ 8 - 0x79))⟩ := by
        simp only [TbQuant.decode, if_neg hne]
      rw [hd]
      rw [encode_fields _ _ _ (by omega) (by omega)
        (div_shift_lt _ _ (by omega))]
      have hmul : v % 2 ^ 23 / 2 ^ (23 - (v / 2 ^ 23 % 2 ^ 8 - 0x79)) *
          2 ^ (23 - (v / 2 ^ 23 % 2 ^ 8 - 0x79)) = v % 2 ^ 23 :=
        Nat.div_mul_cancel (Nat.dvd_of_mod_eq_zero hnf)
      rw [hmul]
      have h2 : v / 2 ^ 31 % 2 = 0 ∨ v / 2 ^ 31 % 2 = 1 := by omega
      rcases h2 with h2 | h2 <;> rw [h2] <;> simp <;> omega
  · intro v hv hr
    rcases Nat.eq_zero_or_pos v with rfl | hpos
    · rfl
    have hne : v ≠ 0 := by omega
    have hd : TbQuant.decode v =
        ⟨(v / 2 ^ 31 % 2 == 1), v / 2 ^ 23 % 2 ^ 8,
          v % 2 ^ 23 / 2 ^ (23 - (v / 2 ^ 23 % 2 ^ 8 - 0x79))⟩ := by
      simp only [TbQuant.decode, if_neg hne]
    rcases Nat.eq_zero_or_pos (v / 2 ^ 23 % 2 ^ 8) with he0 | he1
    · have hs0 : v / 2 ^ 31 % 2 = 0 := by omega
      rw [hd, he0, hs0]
      norm_num
      rfl
    · rw [hd]
      exact decode_encode_core _ _ _ (by omega) he1
        (div_shift_lt _ _ (by omega))

/-- C2 witness: the round-trip laws hold at the boundary raw value
0xC49FEC00 from the source's own unit test. -/
theorem C2_tbquant_roundtrip_witness :
    TbQuant.encode (TbQuant.decode 0xC49FEC00) = 0xC49FEC00 ∧
    TbQuant.decode (TbQuant.encode (TbQuant.decode 0xC49FEC00)) =
      TbQuant.decode 0xC49FEC00 :=
  ⟨C2_tbquant_roundtrip.1 0xC49FEC00 (by norm_num) (by decide) (by norm_num),
   C2_tbquant_roundtrip.2 0xC49FEC00 (by norm_num) (by decide)⟩

/-- C3, counterexample: the negative-zero triple is a value the
decoder itself produces (from raw 0x80000000), and decode(encode q)
sends it to the canonical zero, not back to itself. -/
theorem C3_counterexample :
    TbQuant.decode 0x80000000 = ⟨true, 0, 0⟩ ∧
    TbQuant.decode (TbQuant.encode ⟨true, 0, 0⟩) ≠ (⟨true, 0, 0⟩ : TbQuant) := by
  refine ⟨by decide, by decide⟩

/-- C3 (amended): decode(encode q) = q for every canonical TbQuant
triple: 8-bit exponent, a fraction of at most min(exp - 0x79, 23)
significant bits, and not the negative-zero triple.  These are exactly
the values the decoder can produce, minus negative zero. -/
theorem C3_decode_encode (q : TbQuant) (h : TbQuant.canonical q) :
    TbQuant.decode (TbQuant.encode q) = q := by
  obtain ⟨n, e, fr⟩ := q
  obtain ⟨he, hfr, hz⟩ := h
  rcases Nat.eq_zero_or_pos e with rfl | h1
  · have h0 : fr = 0 := by
      norm_num at hfr
      omega
    subst h0
    have hn : n = false := hz rfl
    subst hn
    rfl
  · exact decode_encode_core n e fr he h1 hfr

/-- C3 witness: the round trip at the decoded form of 0xC49FEC00. -/
theorem C3_decode_encode_witness :
    TbQuant.decode (TbQuant.encode ⟨true, 137, 16344⟩) =
      (⟨true, 137, 16344⟩ : TbQuant) :=
  C3_decode_encode ⟨true, 137, 16344⟩ (by decide)

end Tvg

namespace Tvg

/-! ## Path segment opcode decoder (src/src/layer.rs lines 84-139) -/

/-- Path segment opcodes (enum PathSegmentType). -/
inductive PathSegmentType : Type
  | line : PathSegmentType
  | cubic : PathSegmentType
deriving DecidableEq, Repr

/-- Points consumed by one segment: a Line consumes 1 point, a Cubic
consumes 3 points. -/
def segPoints : PathSegmentType → Nat
  | .line => 1
  | .cubic => 3

/-- Total point count of a segment-type sequence. -/
def segPointsSum (l : List PathSegmentType) : Nat := (l.map segPoints).sum

/-- One iteration per bit of the while loop of PathSegmentType::read.
State: current byte, bit position pos, length zeros of the current run
of 0-bits, remaining point budget pointsLeft, accumulated output out.
The source reads the next bit through a closure that first refills the
byte buffer when pos > 7 (read_u8, pos -= 8) and then tests
current & (1 << pos), written here current / 2 ^ pos % 2 = 1; the
embedding inlines that refill into both branches of an if.  A 1 bit
closes a run: length 0 is a Line (points_left -= 1, safe under the
loop guard), length 2 is a Cubic (points_left -= 3, a checked u32
subtraction that panics on underflow), any other length is the fatal
unknown-curve-segment-type error.  The loop stops when pointsLeft
reaches 0; fuel bounds the iteration count, one bit per iteration. -/
def segTypeLoop : Nat → Nat → Nat → Nat → Nat → List PathSegmentType →
    M (List PathSegmentType)
  | 0, _, _, _, _, _ => fun _ => .error .fuelOut
  | fuel + 1, current, pos, zeros, pointsLeft, out => fun s =>
    if pointsLeft = 0 then .ok (out, s)
    else if 7 < pos then
      match s with
      | [] => .error .ioEof
      | b :: t =>
        if b / 2 ^ (pos - 8) % 2 = 1 then
          match zeros with
          | 0 => segTypeLoop fuel b (pos - 8 + 1) 0 (pointsLeft - 1)
              (out.concat .line) t
          | 2 =>
            if 3 ≤ pointsLeft then
              segTypeLoop fuel b (pos - 8 + 1) 0 (pointsLeft - 3)
                (out.concat .cubic) t
            else .error (.panic ("attempt to subtract with overflow"))
          | n => .error (.unknownMystery
              ("unknown curve segment type " ++ toString n))
        else segTypeLoop fuel b (pos - 8 + 1) (zeros + 1) pointsLeft out t
    else
      if current / 2 ^ pos % 2 = 1 then
        match zeros with
        | 0 => segTypeLoop fuel current (pos + 1) 0 (pointsLeft - 1)
            (out.concat .line) s
        | 2 =>
          if 3 ≤ pointsLeft then
            segTypeLoop fuel current (pos + 1) 0 (pointsLeft - 3)
              (out.concat .cubic) s
          else .error (.panic ("attempt to subtract with overflow"))
        | n => .error (.unknownMystery
            ("unknown curve segment type " ++ toString n))
      else segTypeLoop fuel current (pos + 1) (zeros + 1) pointsLeft out s

/-- PathSegmentType::read: read the first byte unconditionally, then
run the bit loop with the given point budget.  The fuel strictly
exceeds the number of bits the stream can supply, so the loop always
ends by budget exhaustion, EOF, or a decode error. -/
def pathSegmentTypeRead (points : Nat) : M (List PathSegmentType) := fun s =>
  (do
    let current ← readU8
    segTypeLoop (8 * (s.length + 2)) current 0 0 points []) s

/-- Sum bookkeeping for list concat. -/
theorem segPointsSum_concat (l : List PathSegmentType) (x : PathSegmentType) :
    segPointsSum (l.concat x) = segPointsSum l + segPoints x := by
  simp [segPointsSum]

/-- Invariant of the opcode loop: on success, the points of the
emitted segments account exactly for the consumed budget. -/
theorem segTypeLoop_sum : ∀ (fuel current pos zeros pl : Nat)
    (out res : List PathSegmentType) (s s' : Bytes),
    segTypeLoop fuel current pos zeros pl out s = .ok (res, s') →
    segPointsSum res = segPointsSum out + pl := by
  intro fuel
  induction fuel with
  | zero =>
    intro _ _ _ _ _ _ _ _ h
    simp [segTypeLoop] at h
  | succ fuel ih =>
    intro current pos zeros pl out res s s' h
    simp only [segTypeLoop] at h
    split at h
    case isTrue hpl =>
      simp only [Except.ok.injEq, Prod.mk.injEq] at h
      obtain ⟨h1, h2⟩ := h
      subst h1
      simp [hpl]
    case isFalse hpl =>
      split at h
      case isTrue hpos =>
        split at h
        case h_1 => simp at h
        case h_2 =>
          split at h
          · split at h
            · have hsum := ih _ _ _ _ _ _ _ _ h
              rw [segPointsSum_concat] at hsum
              simp [segPoints] at hsum
              omega
            · split at h
              · have hsum := ih _ _ _ _ _ _ _ _ h
                rw [segPointsSum_concat] at hsum
                simp [segPoints] at hsum
                omega
              · simp at h
            · simp at h
          · have hsum := ih _ _ _ _ _ _ _ _ h
            omega
      case isFalse hpos =>
        split at h
        · split at h
          · have hsum := ih _ _ _ _ _ _ _ _ h
            rw [segPointsSum_concat] at hsum
            simp [segPoints] at hsum
            omega
          · split at h
            · have hsum := ih _ _ _ _ _ _ _ _ h
              rw [segPointsSum_concat] at hsum
              simp [segPoints] at hsum
              omega
            · simp at h
          · simp at h
        · have hsum := ih _ _ _ _ _ _ _ _ h
          omega

/-- C4: whenever the opcode decoder returns successfully, the summed
point counts of the returned segment types (Line = 1, Cubic = 3) equal
the declared point budget exactly; and inside the loop, a run of zeros
of any length other than 0 or 2 terminated by a 1 bit fails with the
fatal unknown-curve-segment-type error. -/
theorem C4_opcode_stream :
    (∀ (points : Nat) (s s' : Bytes) (res : List PathSegmentType),
        pathSegmentTypeRead points s = .ok (res, s') →
        segPointsSum res = points) ∧
    (∀ (fuel current pos zeros pl : Nat) (out : List PathSegmentType)
        (s : Bytes), pl ≠ 0 → pos ≤ 7 → current / 2 ^ pos % 2 = 1 →
        zeros ≠ 0 → zeros ≠ 2 →
        segTypeLoop (fuel + 1) current pos zeros pl out s =
          .error (.unknownMystery
            ("unknown curve segment type " ++ toString zeros))) := by
  constructor
  · intro points s s' res h
    unfold pathSegmentTypeRead at h
    rw [M.bind_apply] at h
    cases s with
    | nil => simp [readU8] at h
    | cons b t =>
      have hb : readU8 (b :: t) = .ok (b, t) := rfl
      rw [hb] at h
      have := segTypeLoop_sum _ b 0 0 points [] res t s' h
      simpa [segPointsSum] using this
  · intro fuel current pos zeros pl out s hpl hpos hbit hz0 hz2
    simp only [segTypeLoop]
    rw [if_neg hpl, if_neg (show ¬ 7 < pos by omega), if_pos hbit]

/-- C4 witness: the byte 0b00010011 with budget 5 decodes to Line,
Line, Cubic (5 points); and a 1-run of length 1 fails with the
unknown-curve-segment-type error. -/
theorem C4_opcode_stream_witness :
    segPointsSum [PathSegmentType.line, PathSegmentType.line,
      PathSegmentType.cubic] = 5 ∧
    segTypeLoop 1 2 1 1 1 [] [] =
      .error (.unknownMystery ("unknown curve segment type " ++ toString 1)) :=
  ⟨C4_opcode_stream.1 5 [19] []
      [PathSegmentType.line, PathSegmentType.line, PathSegmentType.cubic]
      (by rfl),
   C4_opcode_stream.2 0 2 1 1 1 [] [] (by decide) (by decide) (by decide)
      (by decide) (by decide)⟩

end Tvg

namespace Tvg

/-! ### Evaluation lemmas for the primitive readers -/

/-- readU8 on a cons stream. -/
@[simp] theorem readU8_cons (b : Nat) (r : Bytes) :
    readU8 (b :: r) = .ok (b, r) := rfl

/-- readU8 on the empty stream. -/
@[simp] theorem readU8_nil : readU8 [] = .error .ioEof := rfl

/-- readExact consumes an explicit prefix. -/
theorem readExact_append (l r : Bytes) :
    readExact l.length (l ++ r) = .ok (l, r) := by
  unfold readExact
  rw [if_pos (by simp)]
  rw [List.take_left, List.drop_left]

/-- readU16le on two explicit leading bytes. -/
@[simp] theorem readU16le_cons (b0 b1 : Nat) (r : Bytes) :
    readU16le (b0 :: b1 :: r) = .ok (b0 + 256 * b1, r) := by
  have h : readExact 2 (b0 :: b1 :: r) = .ok ([b0, b1], r) :=
    readExact_append [b0, b1] r
  unfold readU16le
  rw [M.bind_apply, h]
  simp [M.pure_apply, leNat]

/-- readU32le on four explicit leading bytes. -/
@[simp] theorem readU32le_cons (b0 b1 b2 b3 : Nat) (r : Bytes) :
    readU32le (b0 :: b1 :: b2 :: b3 :: r) =
      .ok (b0 + 256 * b1 + 65536 * b2 + 16777216 * b3, r) := by
  have h : readExact 4 (b0 :: b1 :: b2 :: b3 :: r) = .ok ([b0, b1, b2, b3], r) :=
    readExact_append [b0, b1, b2, b3] r
  unfold readU32le
  rw [M.bind_apply, h]
  simp [M.pure_apply, leNat]
  ring_nf

/-- readU32be on four explicit leading bytes. -/
@[simp] theorem readU32be_cons (b0 b1 b2 b3 : Nat) (r : Bytes) :
    readU32be (b0 :: b1 :: b2 :: b3 :: r) =
      .ok (16777216 * b0 + 65536 * b1 + 256 * b2 + b3, r) := by
  have h : readExact 4 (b0 :: b1 :: b2 :: b3 :: r) = .ok ([b0, b1, b2, b3], r) :=
    readExact_append [b0, b1, b2, b3] r
  unfold readU32be
  rw [M.bind_apply, h]
  simp [M.pure_apply, beNat]
  ring_nf

/-- readU64le on eight explicit leading bytes. -/
@[simp] theorem readU64le_cons (b0 b1 b2 b3 b4 b5 b6 b7 : Nat) (r : Bytes) :
    readU64le (b0 :: b1 :: b2 :: b3 :: b4 :: b5 :: b6 :: b7 :: r) =
      .ok (b0 + 256 * b1 + 65536 * b2 + 16777216 * b3 +
        4294967296 * b4 + 1099511627776 * b5 + 281474976710656 * b6 +
        72057594037927936 * b7, r) := by
  have h : readExact 8 (b0 :: b1 :: b2 :: b3 :: b4 :: b5 :: b6 :: b7 :: r) =
      .ok ([b0, b1, b2, b3, b4, b5, b6, b7], r) :=
    readExact_append [b0, b1, b2, b3, b4, b5, b6, b7] r
  unfold readU64le
  rw [M.bind_apply, h]
  simp [M.pure_apply, leNat]
  ring_nf

/-- u32le always produces four bytes. -/
theorem u32le_length (n : Nat) : (u32le n).length = 4 := rfl

/-- u32le is a right inverse of leNat on u32 values. -/
theorem leNat_u32le (n : Nat) (h : n < 2 ^ 32) : leNat (u32le n) = n := by
  unfold u32le leNat
  simp
  omega

end Tvg

namespace Tvg

/-! ## Encoded data (src/src/util.rs lines 5-33)

read_encoded_data dispatches on a big-endian encoding tag: UNCO copies
a length-prefixed buffer verbatim; ZLIB reads len and decompressed_len
and inflates a zlib stream drawn from a bounded view of
len - 4 (saturating) bytes.  decompressed_len is passed to
Vec::with_capacity only.

The zlib decompressor is a third-party dependency (libflate), not code
of this repository.  It is modelled for the fragment the theorems
exercise: the zlib container (header validation and Adler-32
verification) over DEFLATE streams consisting of stored (uncompressed)
blocks.  Compressed DEFLATE block types are outside the model and
reported as invalid data; every stream appearing below uses stored
blocks only, where the model agrees with any conforming zlib
decoder. -/

/-- Adler-32 state update for one byte. -/
def adlerStep (p : Nat × Nat) (b : Nat) : Nat × Nat :=
  ((p.1 + b) % 65521, (p.2 + (p.1 + b) % 65521) % 65521)

/-- Adler-32 checksum of a byte list. -/
def adler32 (l : Bytes) : Nat :=
  let p := l.foldl adlerStep (1, 0)
  p.2 * 65536 + p.1

/-- DEFLATE stored-block sequence: each block is one header byte
(BFINAL in bit 0, BTYPE in bits 1-2, zero for a stored block), a
little-endian u16 LEN, its complement NLEN, and LEN raw bytes.
Returns the inflated output and the number of bytes consumed.  fuel
bounds the block count; each block consumes at least five bytes. -/
def inflateBlocks : Nat → Bytes → Except ReadError (Bytes × Nat)
  | 0, _ => .error .fuelOut
  | fuel + 1, s =>
    match s with
    | [] => .error .ioEof
    | b :: t =>
      if b / 2 % 4 = 0 then
        match t with
        | l0 :: l1 :: n0 :: n1 :: rest =>
          if (l0 + 256 * l1) + (n0 + 256 * n1) = 65535 then
            if l0 + 256 * l1 ≤ rest.length then
              if b % 2 = 1 then
                .ok (rest.take (l0 + 256 * l1), 5 + (l0 + 256 * l1))
              else
                match inflateBlocks fuel (rest.drop (l0 + 256 * l1)) with
                | .ok (out, used) =>
                  .ok (rest.take (l0 + 256 * l1) ++ out,
                    5 + (l0 + 256 * l1) + used)
                | .error e => .error e
            else .error .ioEof
          else .error (.ioInvalid ("invalid stored block lengths"))
        | _ => .error .ioEof
      else .error (.ioInvalid ("deflate block type outside the model"))

/-- Model of the libflate zlib decoder: validate the two header bytes
(method 8, header checksum divisible by 31, no preset dictionary),
inflate the stored-block sequence, then verify the big-endian Adler-32
trailer.  Returns the output and the total bytes consumed. -/
def zlibInflate (s : Bytes) : Except ReadError (Bytes × Nat) :=
  match s with
  | cmf :: flg :: rest =>
    if cmf % 16 = 8 ∧ (cmf * 256 + flg) % 31 = 0 ∧ flg / 32 % 2 = 0 then
      match inflateBlocks (rest.length + 1) rest with
      | .ok (out, used) =>
        match rest.drop used with
        | a0 :: a1 :: a2 :: a3 :: _ =>
          if beNat [a0, a1, a2, a3] = adler32 out then
            .ok (out, 2 + used + 4)
          else .error (.ioInvalid ("adler32 mismatch"))
        | _ => .error .ioEof
      | .error e => .error e
    else .error (.ioInvalid ("invalid zlib header"))
  | _ => .error .ioEof

/-- read_encoded_data (src/src/util.rs lines 8-33).  Dispatch on the
big-endian encoding tag: UNCO (0x554E434F) reads a u32 length and that
many verbatim bytes; ZLIB (0x5A4C4942) reads len and decompressed_len
(the latter feeds Vec::with_capacity only and is never validated) and
runs the zlib decoder over a take(len.saturating_sub(4)) bounded view,
with read_to_end collecting the whole inflated stream; any other tag
is the unknown-encoding error. -/
def readEncodedData : M Bytes := do
  let tag ← readU32be
  if tag = 0x554e434f then
    let len ← readU32le
    readExact len
  else if tag = 0x5a4c4942 then
    let len ← readU32le
    let _decompressedLen ← readU32le
    fun s1 =>
      match zlibInflate (s1.take (len - 4)) with
      | .ok (out, used) =>
        .ok (out, (s1.take (len - 4)).drop used ++ s1.drop (len - 4))
      | .error e => .error e
  else mthrow (.unknownEncoding tag)

end Tvg

namespace Tvg

/-- C5, counterexample: a ZLIB-tagged chunk whose decompressed_len
header field is 1 but whose zlib stream (a single stored block)
inflates to the two bytes AB CD is accepted, and the returned buffer
has length 2, which differs from and exceeds the header value.  So
the inflated size is neither forced to equal decompressed_len nor
rejected when it exceeds it. -/
theorem C5_counterexample :
    readEncodedData ([0x5A, 0x4C, 0x49, 0x42] ++ u32le 17 ++ u32le 1 ++
        [0x78, 0x01, 0x01, 0x02, 0x00, 0xFD, 0xFF, 0xAB, 0xCD,
          0x02, 0x25, 0x01, 0x79]) =
      .ok ([0xAB, 0xCD], []) ∧
    ([0xAB, 0xCD] : Bytes).length ≠ 1 ∧ 1 < ([0xAB, 0xCD] : Bytes).length := by
  refine ⟨by rfl, by decide, by decide⟩

/-- C5 (amended): the ZLIB branch ignores the decompressed_len header
entirely: the result of read_encoded_data does not depend on it, and
on success the returned buffer is exactly what the zlib stream
(drawn from a bounded view of len - 4 bytes, saturating) inflates to;
the UNCO branch returns exactly len verbatim bytes. -/
theorem C5_encoded_data :
    (∀ (len dlen dlen' : Nat) (rest : Bytes),
        readEncodedData ([0x5A, 0x4C, 0x49, 0x42] ++ u32le len ++
            u32le dlen ++ rest) =
          readEncodedData ([0x5A, 0x4C, 0x49, 0x42] ++ u32le len ++
            u32le dlen' ++ rest)) ∧
    (∀ (len : Nat) (dlen : Nat) (rest out : Bytes) (used : Nat),
        len < 2 ^ 32 →
        zlibInflate (rest.take (len - 4)) = .ok (out, used) →
        readEncodedData ([0x5A, 0x4C, 0x49, 0x42] ++ u32le len ++
            u32le dlen ++ rest) =
          .ok (out, (rest.take (len - 4)).drop used ++ rest.drop (len - 4))) ∧
    (∀ (len : Nat) (rest : Bytes), len < 2 ^ 32 → len ≤ rest.length →
        readEncodedData ([0x55, 0x4E, 0x43, 0x4F] ++ u32le len ++ rest) =
          .ok (rest.take len, rest.drop len)) := by
  refine ⟨?_, ?_, ?_⟩
  · intro len dlen dlen' rest
    unfold readEncodedData
    simp only [List.cons_append, List.nil_append, M.bind_apply, readU32be_cons,
      u32le, readU32le_cons]
    norm_num
    simp only [M.bind_apply, readU32le_cons, M.pure_apply]
  · intro len dlen rest out used hlen hz
    unfold readEncodedData
    simp only [List.cons_append, List.nil_append, M.bind_apply, readU32be_cons,
      u32le, readU32le_cons]
    norm_num
    simp only [M.bind_apply, readU32le_cons, M.pure_apply]
    have hL : len % 256 + 256 * (len / 256 % 256) + 65536 * (len / 65536 % 256) +
        16777216 * (len / 16777216 % 256) = len := by omega
    rw [hL, hz]
  · intro len rest hlen hr
    unfold readEncodedData
    simp only [List.cons_append, List.nil_append, M.bind_apply, readU32be_cons,
      u32le, readU32le_cons]
    norm_num
    simp only [M.bind_apply, readU32le_cons]
    have hL : len % 256 + 256 * (len / 256 % 256) + 65536 * (len / 65536 % 256) +
        16777216 * (len / 16777216 % 256) = len := by omega
    rw [hL]
    unfold readExact
    rw [if_pos hr]

end Tvg

namespace Tvg

/-- C5 witness: the amended laws evaluated on the stored-block zlib
chunk (with two different decompressed_len headers) and on a small
UNCO chunk. -/
theorem C5_encoded_data_witness :
    readEncodedData ([0x5A, 0x4C, 0x49, 0x42] ++ u32le 17 ++ u32le 5 ++
        [0x78, 0x01, 0x01, 0x02, 0x00, 0xFD, 0xFF, 0xAB, 0xCD,
          0x02, 0x25, 0x01, 0x79]) =
      readEncodedData ([0x5A, 0x4C, 0x49, 0x42] ++ u32le 17 ++ u32le 9 ++
        [0x78, 0x01, 0x01, 0x02, 0x00, 0xFD, 0xFF, 0xAB, 0xCD,
          0x02, 0x25, 0x01, 0x79]) ∧
    readEncodedData ([0x5A, 0x4C, 0x49, 0x42] ++ u32le 17 ++ u32le 5 ++
        [0x78, 0x01, 0x01, 0x02, 0x00, 0xFD, 0xFF, 0xAB, 0xCD,
          0x02, 0x25, 0x01, 0x79]) = .ok ([0xAB, 0xCD], []) ∧
    readEncodedData ([0x55, 0x4E, 0x43, 0x4F] ++ u32le 2 ++ [7, 8, 9]) =
      .ok ([7, 8], [9]) :=
  ⟨C5_encoded_data.1 17 5 9
      [0x78, 0x01, 0x01, 0x02, 0x00, 0xFD, 0xFF, 0xAB, 0xCD,
        0x02, 0x25, 0x01, 0x79],
   C5_encoded_data.2.1 17 5
      [0x78, 0x01, 0x01, 0x02, 0x00, 0xFD, 0xFF, 0xAB, 0xCD,
        0x02, 0x25, 0x01, 0x79] [0xAB, 0xCD] 13 (by norm_num) (by rfl),
   C5_encoded_data.2.2 2 [7, 8, 9] (by norm_num) (by norm_num)⟩

end Tvg

namespace Tvg

/-- Boolean error test on reader results. -/
def isErrB : Except ReadError α → Bool
  | .error _ => true
  | .ok _ => false

namespace Pencil

/-! ## Stroke thickness, tGTB (src/tvg/src/pencil.rs)

All f32 fields carry their raw little-endian 32-bit patterns. -/

/-- StrokeThicknessSide (pencil.rs lines 39-50). -/
structure StrokeThicknessSide : Type where
  offset : Nat
  ctrlBack : Nat × Nat
  ctrlFwd : Nat × Nat
deriving DecidableEq, Repr

/-- StrokeThicknessPoint (pencil.rs lines 16-25). -/
structure StrokeThicknessPoint : Type where
  loc : Nat
  left : StrokeThicknessSide
  right : StrokeThicknessSide
deriving DecidableEq, Repr

/-- StrokeThickness (pencil.rs lines 7-14): an optional definition of
a new thickness path plus the domain applying to the current shape. -/
structure StrokeThickness : Type where
  definition : Option (List StrokeThicknessPoint)
  domain : Nat × Nat
deriving DecidableEq, Repr

/-- read_tgtb_domain (pencil.rs lines 53-73): f32 LE domain_start, a
u64 LE gap that must be zero, f32 LE domain_end, a second zero u64
gap; a non-zero gap is the fatal unknown-mystery error. -/
def readTgtbDomain : M (Nat × Nat) := do
  let domainStart ← readF32le
  let unknown ← readU64le
  if unknown ≠ 0 then
    mthrow (.unknownMystery
      ("unexpected tGTB bytes after domain start: " ++ toString unknown))
  else do
    let domainEnd ← readF32le
    let unknown2 ← readU64le
    if unknown2 ≠ 0 then
      mthrow (.unknownMystery
        ("unexpected tGTB bytes after domain end: " ++ toString unknown2))
    else
      pure (domainStart, domainEnd)

/-- The point blocks of a tGTB definition: point_count blocks of
eleven f32 values (loc, off_l, lb, lf, off_r, rb, rf). -/
def readThicknessPoints : Nat → M (List StrokeThicknessPoint)
  | 0 => pure []
  | n + 1 => do
    let loc ← readF32le
    let offL ← readF32le
    let lbx ← readF32le
    let lby ← readF32le
    let lfx ← readF32le
    let lfy ← readF32le
    let offR ← readF32le
    let rbx ← readF32le
    let rby ← readF32le
    let rfx ← readF32le
    let rfy ← readF32le
    let rest ← readThicknessPoints n
    pure (⟨loc, ⟨offL, (lbx, lby), (lfx, lfy)⟩,
      ⟨offR, (rbx, rby), (rfx, rfy)⟩⟩ :: rest)

/-- The body of read_tgtb inside the take(len) bounded view
(pencil.rs lines 81-175).  First byte 0x00: require the four-byte
header FF FF FF FF (on mismatch, drain the view and fail), read the
domain, return no definition.  First byte 0x01: require the six-byte
header FF FF FF FF CF 00, read point_count and the point blocks, a
five-byte zero trailer, then the domain.  Any other first byte is the
fatal unknown-tGTB-type error. -/
def readTgtbBody : M StrokeThickness := do
  let first ← readU8
  if first = 0x00 then do
    let headerRead ← readExact 4
    if headerRead ≠ [0xFF, 0xFF, 0xFF, 0xFF] then do
      let rest ← readToEnd
      mthrow (.unknownMystery
        ("unexpected tGTB use header: " ++ toString headerRead ++
          " rest: " ++ toString rest))
    else do
      let domain ← readTgtbDomain
      pure ⟨none, domain⟩
  else if first = 0x01 then do
    let headerRead ← readExact 6
    if headerRead ≠ [0xFF, 0xFF, 0xFF, 0xFF, 0xCF, 0x00] then do
      let rest ← readToEnd
      mthrow (.unknownMystery
        ("unexpected tGTB definition header: " ++ toString headerRead ++
          " rest: " ++ toString rest))
    else do
      let pointCount ← readU32le
      let points ← readThicknessPoints pointCount
      let trailerRead ← readExact 5
      if trailerRead ≠ [0, 0, 0, 0, 0] then
        mthrow (.unknownMystery
          ("unexpected tGTB definition trailer: " ++ toString trailerRead))
      else do
        let domain ← readTgtbDomain
        pure ⟨some points, domain⟩
  else
    mthrow (.unknownMystery ("unknown tGTB type: " ++ toString first))

/-- read_tgtb (pencil.rs lines 76-176): u32 LE length, then the body
inside a take(len) bounded view. -/
def readTgtb : M StrokeThickness := do
  let len ← readU32le
  withTake len readTgtbBody

end Pencil

end Tvg

namespace Tvg

/-- readExact on four explicit leading bytes. -/
@[simp] theorem readExact_four (a b c d : Nat) (r : Bytes) :
    readExact 4 (a :: b :: c :: d :: r) = .ok ([a, b, c, d], r) :=
  readExact_append [a, b, c, d] r

/-- readExact on five explicit leading bytes. -/
@[simp] theorem readExact_five (a b c d e : Nat) (r : Bytes) :
    readExact 5 (a :: b :: c :: d :: e :: r) = .ok ([a, b, c, d, e], r) :=
  readExact_append [a, b, c, d, e] r

/-- readExact on six explicit leading bytes. -/
@[simp] theorem readExact_six (a b c d e f : Nat) (r : Bytes) :
    readExact 6 (a :: b :: c :: d :: e :: f :: r) =
      .ok ([a, b, c, d, e, f], r) :=
  readExact_append [a, b, c, d, e, f] r

/-- C6: for a tGTB payload whose first byte is 0x00, the reader
requires the four bytes FF FF FF FF, then the domain trailer
(f32 LE domain_start, zero u64 gap, f32 LE domain_end, zero u64 gap),
returning a StrokeThickness with no definition and that domain; a
non-zero gap and a first byte other than 0x00/0x01 are fatal; and
read_tgtb is the body inside a take(len) view after the u32 length. -/
theorem C6_tgtb_reference :
    (∀ (d0 d1 d2 d3 e0 e1 e2 e3 : Nat) (rest : Bytes),
      Pencil.readTgtbBody (0x00 :: 0xFF :: 0xFF :: 0xFF :: 0xFF ::
          d0 :: d1 :: d2 :: d3 :: 0 :: 0 :: 0 :: 0 :: 0 :: 0 :: 0 :: 0 ::
          e0 :: e1 :: e2 :: e3 :: 0 :: 0 :: 0 :: 0 :: 0 :: 0 :: 0 :: 0 :: rest) =
        .ok (⟨none, (d0 + 256 * d1 + 65536 * d2 + 16777216 * d3,
          e0 + 256 * e1 + 65536 * e2 + 16777216 * e3)⟩, rest)) ∧
    (∀ (h0 h1 h2 h3 : Nat) (rest : Bytes),
      [h0, h1, h2, h3] ≠ [0xFF, 0xFF, 0xFF, 0xFF] →
      isErrB (Pencil.readTgtbBody (0x00 :: h0 :: h1 :: h2 :: h3 :: rest)) = true) ∧
    (∀ (d0 d1 d2 d3 g0 g1 g2 g3 g4 g5 g6 g7 : Nat) (rest : Bytes),
      g0 + 256 * g1 + 65536 * g2 + 16777216 * g3 + 4294967296 * g4 +
        1099511627776 * g5 + 281474976710656 * g6 +
        72057594037927936 * g7 ≠ 0 →
      isErrB (Pencil.readTgtbBody (0x00 :: 0xFF :: 0xFF :: 0xFF :: 0xFF ::
        d0 :: d1 :: d2 :: d3 :: g0 :: g1 :: g2 :: g3 :: g4 :: g5 :: g6 :: g7 ::
        rest)) = true) ∧
    (∀ (d0 d1 d2 d3 e0 e1 e2 e3 g0 g1 g2 g3 g4 g5 g6 g7 : Nat) (rest : Bytes),
      g0 + 256 * g1 + 65536 * g2 + 16777216 * g3 + 4294967296 * g4 +
        1099511627776 * g5 + 281474976710656 * g6 +
        72057594037927936 * g7 ≠ 0 →
      isErrB (Pencil.readTgtbBody (0x00 :: 0xFF :: 0xFF :: 0xFF :: 0xFF ::
        d0 :: d1 :: d2 :: d3 :: 0 :: 0 :: 0 :: 0 :: 0 :: 0 :: 0 :: 0 ::
        e0 :: e1 :: e2 :: e3 :: g0 :: g1 :: g2 :: g3 :: g4 :: g5 :: g6 :: g7 ::
        rest)) = true) ∧
    (∀ (b : Nat) (rest : Bytes), b ≠ 0 → b ≠ 1 →
      Pencil.readTgtbBody (b :: rest) =
        .error (.unknownMystery ("unknown tGTB type: " ++ toString b))) ∧
    (∀ (len : Nat) (tail : Bytes), len < 2 ^ 32 →
      Pencil.readTgtb (u32le len ++ tail) =
        withTake len Pencil.readTgtbBody tail) := by
  refine ⟨?_, ?_, ?_, ?_, ?_, ?_⟩
  · intro d0 d1 d2 d3 e0 e1 e2 e3 rest
    simp [Pencil.readTgtbBody, Pencil.readTgtbDomain, readF32le,
      M.bind_apply, M.pure_apply, mthrow]
  · intro h0 h1 h2 h3 rest h
    unfold Pencil.readTgtbBody
    simp only [M.bind_apply, readU8_cons, readExact_four]
    norm_num
    simp only [M.bind_apply, readExact_four]
    rw [if_neg h]
    rfl
  · intro d0 d1 d2 d3 g0 g1 g2 g3 g4 g5 g6 g7 rest hg
    unfold Pencil.readTgtbBody Pencil.readTgtbDomain
    simp only [M.bind_apply, M.pure_apply, readU8_cons, readExact_four,
      readF32le, readU32le_cons, readU64le_cons, reduceIte]
    rw [if_neg (show ¬([255, 255, 255, 255] ≠ ([255, 255, 255, 255] : Bytes))
      by decide)]
    simp only [M.bind_apply, M.pure_apply, readF32le, readU32le_cons,
      readU64le_cons]
    rw [if_pos hg]
    rfl
  · intro d0 d1 d2 d3 e0 e1 e2 e3 g0 g1 g2 g3 g4 g5 g6 g7 rest hg
    unfold Pencil.readTgtbBody Pencil.readTgtbDomain
    simp only [M.bind_apply, M.pure_apply, readU8_cons, readExact_four,
      readF32le, readU32le_cons, readU64le_cons, reduceIte]
    rw [if_neg (show ¬([255, 255, 255, 255] ≠ ([255, 255, 255, 255] : Bytes))
      by decide)]
    simp only [M.bind_apply, M.pure_apply, readF32le, readU32le_cons,
      readU64le_cons, Nat.mul_zero, Nat.add_zero]
    rw [if_neg (show ¬((0 : Nat) ≠ 0) by decide)]
    simp only [M.bind_apply, M.pure_apply, readF32le, readU32le_cons,
      readU64le_cons]
    rw [if_pos hg]
    rfl
  · intro b rest hb0 hb1
    unfold Pencil.readTgtbBody
    simp only [M.bind_apply, readU8_cons]
    rw [if_neg hb0, if_neg hb1]
    rfl
  · intro len tail hlen
    unfold Pencil.readTgtb
    simp only [u32le, List.cons_append, List.nil_append, M.bind_apply,
      readU32le_cons]
    have hL : len % 256 + 256 * (len / 256 % 256) + 65536 * (len / 65536 % 256) +
        16777216 * (len / 16777216 % 256) = len := by omega
    rw [hL]


/-- C6 witness: the reference-variant laws evaluated on concrete
payloads. -/
theorem C6_tgtb_reference_witness :
    Pencil.readTgtbBody (0x00 :: 0xFF :: 0xFF :: 0xFF :: 0xFF ::
        1 :: 2 :: 3 :: 4 :: 0 :: 0 :: 0 :: 0 :: 0 :: 0 :: 0 :: 0 ::
        5 :: 6 :: 7 :: 8 :: 0 :: 0 :: 0 :: 0 :: 0 :: 0 :: 0 :: 0 :: []) =
      .ok (⟨none, (1 + 256 * 2 + 65536 * 3 + 16777216 * 4,
        5 + 256 * 6 + 65536 * 7 + 16777216 * 8)⟩, []) ∧
    isErrB (Pencil.readTgtbBody (0x00 :: 0 :: 0 :: 0 :: 0 :: [])) = true ∧
    isErrB (Pencil.readTgtbBody (0x00 :: 0xFF :: 0xFF :: 0xFF :: 0xFF ::
      1 :: 2 :: 3 :: 4 :: 1 :: 0 :: 0 :: 0 :: 0 :: 0 :: 0 :: 0 :: [])) = true ∧
    isErrB (Pencil.readTgtbBody (0x00 :: 0xFF :: 0xFF :: 0xFF :: 0xFF ::
      1 :: 2 :: 3 :: 4 :: 0 :: 0 :: 0 :: 0 :: 0 :: 0 :: 0 :: 0 ::
      5 :: 6 :: 7 :: 8 :: 1 :: 0 :: 0 :: 0 :: 0 :: 0 :: 0 :: 0 :: [])) =
      true ∧
    Pencil.readTgtbBody (9 :: []) =
      .error (.unknownMystery ("unknown tGTB type: " ++ toString 9)) ∧
    Pencil.readTgtb (u32le 29 ++ [0x00, 0xFF, 0xFF, 0xFF, 0xFF]) =
      withTake 29 Pencil.readTgtbBody [0x00, 0xFF, 0xFF, 0xFF, 0xFF] :=
  ⟨C6_tgtb_reference.1 1 2 3 4 5 6 7 8 [],
   C6_tgtb_reference.2.1 0 0 0 0 [] (by decide),
   C6_tgtb_reference.2.2.1 1 2 3 4 1 0 0 0 0 0 0 0 [] (by decide),
   C6_tgtb_reference.2.2.2.1 1 2 3 4 5 6 7 8 1 0 0 0 0 0 0 0 [] (by decide),
   C6_tgtb_reference.2.2.2.2.1 9 [] (by decide) (by decide),
   C6_tgtb_reference.2.2.2.2.2 29 [0x00, 0xFF, 0xFF, 0xFF, 0xFF]
     (by norm_num)⟩

end Tvg

namespace Tvg

/-! ## Vector layer (src/src/layer.rs)

The path coordinates of this layer decoder wrap raw little-endian
32-bit f32 patterns (TbQuant-from-f32-bits in the source); they are
carried here as plain naturals. -/

/-- ShapeType (layer.rs lines 13-22), a u16 enum. -/
inductive ShapeType : Type
  | unknown0 | unknown1 | fill | stroke | line | unknown7
deriving DecidableEq, Repr

/-- num_enum try_from for ShapeType. -/
def ShapeType.tryFrom : Nat → Option ShapeType
  | 0 => some .unknown0
  | 1 => some .unknown1
  | 2 => some .fill
  | 3 => some .stroke
  | 6 => some .line
  | 7 => some .unknown7
  | _ => none

/-- ComponentType (layer.rs lines 56-63), a u8 enum. -/
inductive ComponentType : Type
  | fill | unknown1 | stroke | pencil
deriving DecidableEq, Repr

/-- num_enum try_from for ComponentType. -/
def ComponentType.tryFrom : Nat → Option ComponentType
  | 0 => some .fill
  | 1 => some .unknown1
  | 2 => some .stroke
  | 4 => some .pencil
  | _ => none

/-- ComponentInfo (layer.rs lines 65-69). -/
structure ComponentInfo : Type where
  ty : ComponentType
  colorId : Option Nat
deriving DecidableEq, Repr

/-- A path point: two raw 32-bit coordinate patterns. -/
abbrev PointRaw : Type := Nat × Nat

/-- PathSegment (layer.rs lines 78-82). -/
inductive PathSegment : Type
  | line (p : PointRaw)
  | cubic (a b c : PointRaw)
deriving DecidableEq, Repr

/-- Path (layer.rs lines 73-76). -/
structure Path : Type where
  segments : List PathSegment
deriving DecidableEq, Repr

/-- StrokeThicknessSide (layer.rs lines 206-214). -/
structure StrokeThicknessSide : Type where
  offset : Nat
  ctrlBack : PointRaw
  ctrlFwd : PointRaw
deriving DecidableEq, Repr

/-- StrokeThicknessPoint (layer.rs lines 184-192). -/
structure StrokeThicknessPoint : Type where
  loc : Nat
  left : StrokeThicknessSide
  right : StrokeThicknessSide
deriving DecidableEq, Repr

/-- StrokeThickness (layer.rs lines 179-182). -/
structure StrokeThickness : Type where
  points : List StrokeThicknessPoint
deriving DecidableEq, Repr

/-- ShapeComponentData (layer.rs lines 48-54). -/
inductive ShapeComponentData : Type
  | info (i : ComponentInfo)
  | path (p : Path)
  | thickness (t : StrokeThickness)
  | tgti (b : Bytes)
deriving DecidableEq, Repr

/-- ShapeComponent (layer.rs lines 30-33). -/
structure ShapeComponent : Type where
  tags : List ShapeComponentData
deriving DecidableEq, Repr

/-- VectorShape (layer.rs lines 24-28). -/
structure VectorShape : Type where
  ty : ShapeType
  components : List ShapeComponent
deriving DecidableEq, Repr

/-- LayerData (layer.rs lines 7-11). -/
inductive LayerData : Type
  | empty
  | vector (shapes : List VectorShape)
deriving DecidableEq, Repr

/-- The byte-skipping loop for _ in 2..color_pos of the TGSD fill
branch: color_pos - 2 single-byte reads (the Rust range is empty when
color_pos < 2, matching saturating Nat subtraction at the call site). -/
def skipBytes : Nat → M Unit
  | 0 => pure ()
  | n + 1 => do
    let _ ← readU8
    skipBytes n

/-- The TGSD inner view body (layer.rs lines 313-359): a component
type byte, then per type: Fill reads a flag byte (0x00 means no color
id; 0x01 skips (len - 24) - 2 bytes, a checked u32 subtraction, then
reads a u64 LE color id; anything else is fatal); Unknown1 and Stroke
carry no color id; Pencil discards a u32 LE and reads the u64 LE
color id; finally the rest of the view is drained. -/
def tgsdBody (len : Nat) : M ComponentInfo := do
  let tyByte ← readU8
  match ComponentType.tryFrom tyByte with
  | none => mthrow (.unknownComponentType tyByte)
  | some componentType => do
    let colorId ←
      match componentType with
      | .fill => do
        let flag ← readU8
        if flag = 0x00 then
          pure none
        else if flag = 0x01 then do
          let colorPos ← checkedSub len 24
          skipBytes (colorPos - 2)
          let cid ← readU64le
          pure (some cid)
        else
          mthrow (.unknownMystery
            ("unexpected second TGSD byte after 0x00: " ++ toString flag))
      | .unknown1 => pure none
      | .stroke => pure none
      | .pencil => do
        let _ ← readU32le
        let cid ← readU64le
        pure (some cid)
    let _ ← readToEnd
    pure ⟨componentType, colorId⟩

/-- The TGSD tag handler reads the u32 length and runs the body in a
take(len) bounded view (the continuation byte is handled by the
component tag loop, outside the view). -/
def readTgsd : M ComponentInfo := do
  let len ← readU32le
  withTake len (tgsdBody len)

/-- One path point: two f32 LE words (raw patterns). -/
def readPathPoint : M PointRaw := do
  let x ← readF32le
  let y ← readF32le
  pure (x, y)

/-- The point reads of Path::read: one point per Line, three per
Cubic, in segment order. -/
def readSegments : List PathSegmentType → M (List PathSegment)
  | [] => pure []
  | .line :: rest => do
    let p ← readPathPoint
    let others ← readSegments rest
    pure (.line p :: others)
  | .cubic :: rest => do
    let a ← readPathPoint
    let b ← readPathPoint
    let c ← readPathPoint
    let others ← readSegments rest
    pure (.cubic a b c :: others)

/-- Path::read (layer.rs lines 142-177): u32 LE point count, the
bit-packed opcode stream, then the per-segment points. -/
def pathRead : M Path := do
  let pointCount ← readU32le
  let segmentTypes ← pathSegmentTypeRead pointCount
  let segments ← readSegments segmentTypes
  pure ⟨segments⟩

/-- The point blocks of the layer.rs tGTB branch: point_count blocks
of eleven f32 LE words. -/
def readThicknessPointsL : Nat → M (List StrokeThicknessPoint)
  | 0 => pure []
  | n + 1 => do
    let loc ← readF32le
    let offL ← readF32le
    let lbx ← readF32le
    let lby ← readF32le
    let lfx ← readF32le
    let lfy ← readF32le
    let offR ← readF32le
    let rbx ← readF32le
    let rby ← readF32le
    let rfx ← readF32le
    let rfy ← readF32le
    let rest ← readThicknessPointsL n
    pure (⟨loc, ⟨offL, (lbx, lby), (lfx, lfy)⟩,
      ⟨offR, (rbx, rby), (rfx, rfy)⟩⟩ :: rest)

/-- The tGTB branch of the component loop (layer.rs lines 387-466):
first byte must be 0x01, the second byte is only logged, then the
five-byte header FF FF FF CF 00 is required, point_count blocks
follow, and a 29-byte trailer is read and compared against a constant
but a mismatch is only logged, never an error. -/
def tgtbLayerBody : M StrokeThickness := do
  let first ← readU8
  if first = 0x01 then do
    let _second ← readU8
    let headerRead ← readExact 5
    if headerRead ≠ [0xFF, 0xFF, 0xFF, 0xCF, 0x00] then do
      let rest ← readToEnd
      mthrow (.unknownMystery ("unexpected tGTB header " ++
        toString headerRead ++ " rest: " ++ toString rest))
    else do
      let pointCount ← readU32le
      let points ← readThicknessPointsL pointCount
      let _trailerRead ← readExact 29
      pure ⟨points⟩
  else
    mthrow (.unknownMystery ("unexpected tGTB first byte: " ++
      toString first ++ " (expected 01)"))

end Tvg

namespace Tvg

/-- The component tag loop (layer.rs lines 296-476): read big-endian
tags until the bounded component view is exhausted (an unexpected-EOF
on the tag read, which consumes any partial tag, breaks the loop
normally), dispatching TGSD / TGBP / tGTB / tGTI and failing on any
other tag.  The TGSD arm is followed by a continuation byte outside
its inner view: 0x01 keeps looping, 0x00 consumes an opaque u32 LE
trailer and breaks, anything else is fatal.  fuel bounds the
iteration count; every iteration consumes at least the 4 tag bytes. -/
def componentTagLoop : Nat → List ShapeComponentData →
    M (List ShapeComponentData)
  | 0, _ => fun _ => .error .fuelOut
  | fuel + 1, tags => fun s =>
    if s.length < 4 then .ok (tags, [])
    else
      match readU32be s with
      | .error e => .error e
      | .ok (tag, s1) =>
        if tag = 0x54475344 then
          match readTgsd s1 with
          | .error e => .error e
          | .ok (info, s2) =>
            match readU8 s2 with
            | .error e => .error e
            | .ok (extraByte, s3) =>
              if extraByte = 0 then
                match readU32le s3 with
                | .error e => .error e
                | .ok (_, s4) => .ok (tags.concat (.info info), s4)
              else if extraByte = 1 then
                componentTagLoop fuel (tags.concat (.info info)) s3
              else
                .error (.unknownMystery
                  ("unexpected byte that follows TGSD: " ++
                    toString extraByte))
        else if tag = 0x54474250 then
          match (do
              let len ← readU32le
              withTake len pathRead) s1 with
          | .error e => .error e
          | .ok (p, s2) => componentTagLoop fuel (tags.concat (.path p)) s2
        else if tag = 0x74475442 then
          match (do
              let len ← readU32le
              withTake len tgtbLayerBody) s1 with
          | .error e => .error e
          | .ok (th, s2) =>
            componentTagLoop fuel (tags.concat (.thickness th)) s2
        else if tag = 0x74475449 then
          match (do
              let len ← readU32le
              withTake len readToEnd) s1 with
          | .error e => .error e
          | .ok (data, s2) =>
            componentTagLoop fuel (tags.concat (.tgti data)) s2
        else .error (.unknownComponentTag tag)

/-- Entry point of the component tag loop with adequate fuel. -/
def runComponentTags : M (List ShapeComponentData) := fun s =>
  componentTagLoop (s.length + 1) [] s

/-- The component loop of a shape (layer.rs lines 282-479):
component_count components, each opened by the TGVS tag and an LE
length framing the component tag loop. -/
def componentLoop : Nat → M (List ShapeComponent)
  | 0 => pure []
  | n + 1 => do
    let tag ← readU32be
    if tag ≠ 0x54475653 then
      mthrow (.unknownMystery
        ("unexpected shape component tag: " ++ toString tag))
    else do
      let len ← readU32le
      let tags ← withTake len runComponentTags
      let rest ← componentLoop n
      pure (⟨tags⟩ :: rest)

/-- The shape loop of read_vector_layer (layer.rs lines 252-485):
shape_count shapes, each a u32 LE magic 2, the TGLY tag, an LE length
framing the shape body (u16 LE shape type, u32 LE component count,
then the components; an unknown shape type drains the view and
fails). -/
def shapeLoop : Nat → M (List VectorShape)
  | 0 => pure []
  | n + 1 => do
    let layerTy ← readU32le
    if layerTy ≠ 2 then
      mthrow (.unknownMystery ("unexpected layer type: " ++ toString layerTy))
    else do
      let tgly ← readU32be
      if tgly ≠ 0x54474c59 then
        mthrow (.unknownMystery ("unexpected layer tag: " ++ toString tgly))
      else do
        let shapeLen ← readU32le
        let shape ← withTake shapeLen (do
          let tyNum ← readU16le
          match ShapeType.tryFrom tyNum with
          | none => do
            let _ ← readToEnd
            mthrow (.unknownShapeType tyNum)
          | some shapeType => do
            let componentCount ← readU32le
            let comps ← componentLoop componentCount
            pure (⟨shapeType, comps⟩ : VectorShape))
        let rest ← shapeLoop n
        pure (shape :: rest)

/-- LAYER_TRAILER (layer.rs lines 217-219): the 13-byte sentinel that
must follow the shapes of every vector layer. -/
def LAYER_TRAILER : Bytes :=
  [0x00, 0x54, 0x47, 0x52, 0x56, 0x08, 0x00, 0x00, 0x00, 0x3d, 0xdf,
    0x4f, 0x8d]

/-- The tail of read_vector_layer after the shape count: the shapes,
then exactly the 13 sentinel bytes; a short read is an unexpected-EOF
error and any byte mismatch is the fatal unexpected-layer-trailer
error (layer.rs lines 487-496). -/
def vectorLayerTail (shapeCount : Nat) : M LayerData := do
  let shapes ← shapeLoop shapeCount
  let trailer ← readExact 13
  if trailer ≠ LAYER_TRAILER then
    mthrow (.unknownMystery ("unexpected layer trailer: " ++ toString trailer))
  else
    pure (.vector shapes)

/-- read_vector_layer (layer.rs lines 245-497). -/
def readVectorLayer : M LayerData := do
  let shapeCount ← readU32le
  vectorLayerTail shapeCount

/-- The decoded-buffer interpretation of read_layer_data (layer.rs
lines 221-243): u16 LE kind 0x0000 for an empty layer, 0x0100 for a
vector layer body, anything else fatal.  Leftover buffer bytes are
dropped with the cursor. -/
def parseLayerBuf (data : Bytes) : Except ReadError LayerData :=
  match (do
      let dataType ← readU16le
      if dataType = 0 then pure LayerData.empty
      else if dataType = 0x0100 then readVectorLayer
      else mthrow (.unknownMystery
        ("unexpected value of layer data type: " ++ toString dataType)) :
      M LayerData) data with
  | .ok (ld, _) => .ok ld
  | .error e => .error e

/-- read_layer_data: decode the encoded-data buffer, then interpret
it. -/
def readLayerData : M LayerData := fun s =>
  match readEncodedData s with
  | .error e => .error e
  | .ok (data, s') =>
    match parseLayerBuf data with
    | .ok ld => .ok (ld, s')
    | .error e => .error e

end Tvg

namespace Tvg

/-- skipBytes succeeds on any stream long enough, dropping n bytes. -/
theorem skipBytes_ok : ∀ (n : Nat) (s : Bytes), n ≤ s.length →
    skipBytes n s = .ok ((), s.drop n) := by
  intro n
  induction n with
  | zero => intro s _; rfl
  | succ n ih =>
    intro s hs
    cases s with
    | nil => simp at hs
    | cons b t =>
      show (readU8 >>= fun _ => skipBytes n) (b :: t) = _
      rw [M.bind_apply, readU8_cons]
      simpa using ih t (by simpa using hs)

/-- readU64le in terms of take and drop. -/
theorem readU64le_split (s : Bytes) (hs : 8 ≤ s.length) :
    readU64le s = .ok (leNat (s.take 8), s.drop 8) := by
  unfold readU64le readExact
  rw [M.bind_apply, if_pos hs]
  rfl

/-- C7: for every successfully parsed TGSD inner view, a Fill
component carries a color id exactly when its sub-flag byte is 1 (the
id being the u64 LE found after skipping (len - 24) - 2 bytes), a
Pencil component always carries one (the u64 LE after a discarded
u32 LE), Unknown1 and Stroke never do, and a Fill sub-flag other than
0x00/0x01 is the fatal unexpected-second-TGSD-byte error. -/
theorem C7_tgsd_color_id :
    (∀ (len : Nat) (s : Bytes) (info : ComponentInfo) (s' : Bytes),
        tgsdBody len s = .ok (info, s') →
        (info.ty = .fill →
          (info.colorId.isSome = true ↔ (s.drop 1).head? = some 1)) ∧
        (info.ty = .pencil → info.colorId.isSome = true) ∧
        (info.ty = .unknown1 ∨ info.ty = .stroke → info.colorId = none)) ∧
    (∀ (len : Nat) (rest : Bytes), 26 ≤ len →
        len - 26 + 8 ≤ rest.length →
        tgsdBody len (0 :: 1 :: rest) =
          .ok (⟨.fill, some (leNat ((rest.drop (len - 26)).take 8))⟩, [])) ∧
    (∀ (len flag : Nat) (rest : Bytes), flag ≠ 0 → flag ≠ 1 →
        tgsdBody len (0 :: flag :: rest) =
          .error (.unknownMystery
            ("unexpected second TGSD byte after 0x00: " ++ toString flag))) ∧
    (∀ (len u0 u1 u2 u3 c0 c1 c2 c3 c4 c5 c6 c7 : Nat) (rest : Bytes),
        tgsdBody len (4 :: u0 :: u1 :: u2 :: u3 ::
            c0 :: c1 :: c2 :: c3 :: c4 :: c5 :: c6 :: c7 :: rest) =
          .ok (⟨.pencil, some (c0 + 256 * c1 + 65536 * c2 +
            16777216 * c3 + 4294967296 * c4 + 1099511627776 * c5 +
            281474976710656 * c6 + 72057594037927936 * c7)⟩, [])) := by
  refine ⟨?_, ?_, ?_, ?_⟩
  ·
    intro len s info s' h
    unfold tgsdBody at h
    cases s with
    | nil => simp [M.bind_apply, readU8_nil] at h
    | cons t0 s1 =>
      simp only [M.bind_apply, readU8_cons] at h
      rcases htf : ComponentType.tryFrom t0 with _ | ct
      · rw [htf] at h
        simp [mthrow] at h
      · rw [htf] at h
        cases ct with
        | fill =>
          cases s1 with
          | nil => simp [M.bind_apply, readU8_nil, mthrow, ite_apply] at h
          | cons flag s2a =>
            simp only [M.bind_apply, readU8_cons, ite_apply] at h
            split at h
            case isTrue hflag =>
              simp only [M.pure_apply, M.bind_apply, readToEnd,
                Except.ok.injEq, Prod.mk.injEq] at h
              obtain ⟨h1, _⟩ := h
              subst h1
              subst hflag
              simp
            case isFalse hflag =>
              split at h
              case isTrue hflag1 =>
                subst hflag1
                unfold checkedSub at h
                rcases le_or_lt 24 len with hlen | hlen
                · rw [if_pos hlen] at h
                  simp only [M.pure_apply, M.bind_apply] at h
                  split at h
                  case h_1 u sc hskip =>
                    split at h
                    case h_1 cid sd hcid =>
                      simp only [M.pure_apply, M.bind_apply, readToEnd,
                        Except.ok.injEq, Prod.mk.injEq] at h
                      obtain ⟨h1, _⟩ := h
                      subst h1
                      simp
                    case h_2 => simp at h
                  case h_2 => simp at h
                · rw [if_neg (by omega)] at h
                  simp [mthrow, M.bind_apply] at h
              case isFalse hflag1 =>
                simp [mthrow, M.bind_apply] at h
        | unknown1 =>
          simp only [M.pure_apply, M.bind_apply, readToEnd,
            Except.ok.injEq, Prod.mk.injEq] at h
          obtain ⟨h1, _⟩ := h
          subst h1
          simp
        | stroke =>
          simp only [M.pure_apply, M.bind_apply, readToEnd,
            Except.ok.injEq, Prod.mk.injEq] at h
          obtain ⟨h1, _⟩ := h
          subst h1
          simp
        | pencil =>
          simp only [M.bind_apply] at h
          split at h
          case h_1 u sa hu =>
            split at h
            case h_1 cid sb hcid =>
              simp only [M.pure_apply, M.bind_apply, readToEnd,
                Except.ok.injEq, Prod.mk.injEq] at h
              obtain ⟨h1, _⟩ := h
              subst h1
              simp
            case h_2 => simp at h
          case h_2 => simp at h

  · intro len rest hlen hrest
    unfold tgsdBody checkedSub
    simp only [M.bind_apply, readU8_cons, ComponentType.tryFrom]
    norm_num
    rw [if_pos (show 24 ≤ len by omega)]
    have hskip : skipBytes (len - 26) rest = .ok ((), rest.drop (len - 26)) :=
      skipBytes_ok _ _ (by omega)
    have h64 : readU64le (rest.drop (len - 26)) =
        .ok (leNat ((rest.drop (len - 26)).take 8),
          (rest.drop (len - 26)).drop 8) :=
      readU64le_split _ (by simp; omega)
    simp only [M.pure_apply, M.bind_apply, Nat.sub_sub]
    norm_num
    simp only [hskip, h64, readToEnd, M.pure_apply, M.bind_apply]
  · intro len flag rest h0 h1
    unfold tgsdBody
    simp only [M.bind_apply, readU8_cons, ComponentType.tryFrom]
    rw [if_neg h0, if_neg h1]
    simp [mthrow, M.bind_apply]
  · intro len u0 u1 u2 u3 c0 c1 c2 c3 c4 c5 c6 c7 rest
    unfold tgsdBody
    simp [M.bind_apply, M.pure_apply, readU8_cons, ComponentType.tryFrom,
      readU32le_cons, readU64le_cons, readToEnd]

/-- C7 witness: the TGSD laws at concrete inner views. -/
theorem C7_tgsd_color_id_witness :
    (⟨ComponentType.fill, some (leNat [1, 2, 3, 4, 5, 6, 7, 8])⟩ :
      ComponentInfo).colorId.isSome = true ∧
    tgsdBody 26 (0 :: 1 :: [1, 2, 3, 4, 5, 6, 7, 8]) =
      .ok (⟨.fill,
        some (leNat ((([1, 2, 3, 4, 5, 6, 7, 8] : Bytes).drop (26 - 26)).take 8))⟩,
        []) ∧
    tgsdBody 26 (0 :: 5 :: []) =
      .error (.unknownMystery
        ("unexpected second TGSD byte after 0x00: " ++ toString 5)) ∧
    tgsdBody 26 (4 :: 9 :: 9 :: 9 :: 9 ::
        1 :: 0 :: 0 :: 0 :: 0 :: 0 :: 0 :: 0 :: []) =
      .ok (⟨.pencil, some 1⟩, []) :=
  ⟨((C7_tgsd_color_id.1 26 (0 :: 1 :: [1, 2, 3, 4, 5, 6, 7, 8])
        ⟨ComponentType.fill, some (leNat [1, 2, 3, 4, 5, 6, 7, 8])⟩ []
        (by rfl)).1 rfl).mpr (by rfl),
   C7_tgsd_color_id.2.1 26 [1, 2, 3, 4, 5, 6, 7, 8] (by norm_num)
     (by norm_num),
   C7_tgsd_color_id.2.2.1 26 5 [] (by decide) (by decide),
   C7_tgsd_color_id.2.2.2 26 9 9 9 9 1 0 0 0 0 0 0 0 []⟩

end Tvg

namespace Tvg

/-! ## Palette (src/src/palette.rs) -/

/-- ColorData (src/src/read/mod.rs lines 150-158, used by
palette.rs). -/
inductive ColorData : Type
  | colorRgba (r g b a : Nat)
  | colorId (id : Nat) (name : String) (project : String)
deriving DecidableEq, Repr

/-- PaletteColor (palette.rs lines 22-25). -/
structure PaletteColor : Type where
  tags : List ColorData
deriving DecidableEq, Repr

/-- PaletteData (palette.rs lines 17-20). -/
structure PaletteData : Type where
  colors : List PaletteColor
deriving DecidableEq, Repr

/-- Strict UTF-16 decoding of code units (String::from_utf16):
a high surrogate must be followed by a low surrogate, and a lone low
surrogate fails. -/
def utf16Chars : List Nat → Option (List Char)
  | [] => some []
  | u :: rest =>
    if 0xD800 ≤ u ∧ u < 0xDC00 then
      match rest with
      | v :: rest2 =>
        if 0xDC00 ≤ v ∧ v < 0xE000 then
          (utf16Chars rest2).map (fun cs =>
            Char.ofNat (0x10000 + (u - 0xD800) * 0x400 + (v - 0xDC00)) :: cs)
        else none
      | [] => none
    else if 0xDC00 ≤ u ∧ u < 0xE000 then none
    else (utf16Chars rest).map (fun cs => Char.ofNat u :: cs)

/-- String::from_utf16 over a list of code units. -/
def fromUtf16 (l : List Nat) : Option String :=
  (utf16Chars l).map (fun cs => String.mk cs)

/-- Read n UTF-16 code units as u16 LE values. -/
def readUtf16Units : Nat → M (List Nat)
  | 0 => pure []
  | n + 1 => do
    let u ← readU16le
    let rest ← readUtf16Units n
    pure (u :: rest)

/-- The TCID inner view (palette.rs lines 81-108): a u32 LE name
length, that many UTF-16 code units decoded strictly, the u64 LE
color id, a u32 LE project-name length and its UTF-16 code units. -/
def tcidBody : M ColorData := do
  let nameChars ← readU32le
  let nameUnits ← readUtf16Units nameChars
  match fromUtf16 nameUnits with
  | none => mthrow (.utf16Error ("palette color name"))
  | some name => do
    let colorId ← readU64le
    let projChars ← readU32le
    let projUnits ← readUtf16Units projChars
    match fromUtf16 projUnits with
    | none => mthrow (.utf16Error ("palette color project name"))
    | some project => pure (.colorId colorId name project)

/-- The TCSC arm (palette.rs lines 66-79): u32 LE length that must be
4, then the four RGBA bytes. -/
def tcscBody : M ColorData := do
  let len ← readU32le
  if len ≠ 4 then
    mthrow (.unknownMystery
      ("expected palette color TCSC tag to have length 4, but found length " ++
        toString len))
  else do
    let r ← readU8
    let g ← readU8
    let b ← readU8
    let a ← readU8
    pure (.colorRgba r g b a)

/-- The tag loop of one palette color (palette.rs lines 56-113): read
big-endian tag words until the raw word 0x79000000 (end of color) or
EOF of the buffer (also end of color; a partial tag word is consumed
by the failed read); TCSC and TCID are decoded, any other tag is the
fatal unknown-palette-tag error.  fuel bounds the iterations. -/
def colorTagLoop : Nat → List ColorData → M (List ColorData)
  | 0, _ => fun _ => .error .fuelOut
  | fuel + 1, tags => fun s =>
    if s.length < 4 then .ok (tags, [])
    else
      match readU32be s with
      | .error e => .error e
      | .ok (tag, s1) =>
        if tag = 0x79000000 then .ok (tags, s1)
        else if tag = 0x54435343 then
          match tcscBody s1 with
          | .error e => .error e
          | .ok (c, s2) => colorTagLoop fuel (tags.concat c) s2
        else if tag = 0x54434944 then
          match (do
              let len ← readU32le
              withTake len tcidBody) s1 with
          | .error e => .error e
          | .ok (c, s2) => colorTagLoop fuel (tags.concat c) s2
        else .error (.unknownPaletteTag tag)

/-- Entry point of the color tag loop with adequate fuel. -/
def runColorTags : M (List ColorData) := fun s =>
  colorTagLoop (s.length + 1) [] s

/-- The color loop (palette.rs lines 45-116): each color begins with
a u16 LE header that must be zero, followed by its tag loop. -/
def colorLoop : Nat → M (List PaletteColor)
  | 0 => pure []
  | n + 1 => do
    let mysteryHeader ← readU16le
    if mysteryHeader ≠ 0 then
      mthrow (.unknownMystery
        ("expected palette color header to be 0, but found " ++
          toString mysteryHeader))
    else do
      let tags ← runColorTags
      let rest ← colorLoop n
      pure (⟨tags⟩ :: rest)

/-- The decoded-buffer interpretation of read_palette_data
(palette.rs lines 34-118): u32 LE color count, a u32 LE word that
must equal 0x79, then the colors.  Leftover buffer bytes are dropped
with the cursor. -/
def parsePaletteBuf (data : Bytes) : Except ReadError PaletteData :=
  match (do
      let colorCount ← readU32le
      let firstEndTag ← readU32le
      if firstEndTag ≠ 0x79 then
        mthrow (.unknownMystery
          ("expected palette color to start with 0x79, but found " ++
            toString firstEndTag))
      else do
        let colors ← colorLoop colorCount
        pure (⟨colors⟩ : PaletteData) : M PaletteData) data with
  | .ok (pd, _) => .ok pd
  | .error e => .error e

/-- read_palette_data: decode the encoded-data buffer, then interpret
it. -/
def readPaletteData : M PaletteData := fun s =>
  match readEncodedData s with
  | .error e => .error e
  | .ok (data, s') =>
    match parsePaletteBuf data with
    | .ok pd => .ok (pd, s')
    | .error e => .error e

end Tvg
namespace Tvg

/-! ### Prefix-consumption: every reader only consumes a prefix -/

/-- A reader consumes a prefix of its stream: the leftover stream is
a suffix of the input. -/
def ConsumesPrefix (m : M α) : Prop :=
  ∀ s a s', m s = .ok (a, s') → ∃ pre, s = pre ++ s'

theorem cp_pure (a : α) : ConsumesPrefix (pure a : M α) := by
  intro s b s' h
  simp only [M.pure_apply, Except.ok.injEq, Prod.mk.injEq] at h
  exact ⟨[], by simp [h.2]⟩

theorem cp_mthrow (e : ReadError) : ConsumesPrefix (mthrow e : M α) := by
  intro s a s' h
  simp [mthrow] at h

theorem cp_bind {m : M α} {f : α → M β} (hm : ConsumesPrefix m)
    (hf : ∀ a, ConsumesPrefix (f a)) : ConsumesPrefix (m >>= f) := by
  intro s b s' h
  rw [M.bind_apply] at h
  split at h
  case h_1 a s1 heq =>
    obtain ⟨p1, hp1⟩ := hm s a s1 heq
    obtain ⟨p2, hp2⟩ := hf a s1 b s' h
    exact ⟨p1 ++ p2, by rw [hp1, hp2, List.append_assoc]⟩
  case h_2 => cases h

theorem cp_readExact (n : Nat) : ConsumesPrefix (readExact n) := by
  intro s a s' h
  unfold readExact at h
  split at h
  · simp only [Except.ok.injEq, Prod.mk.injEq] at h
    exact ⟨s.take n, by rw [← h.2]; simp⟩
  · cases h

theorem cp_readU8 : ConsumesPrefix readU8 := by
  intro s a s' h
  cases s with
  | nil => simp [readU8] at h
  | cons b t =>
    simp only [readU8_cons, Except.ok.injEq, Prod.mk.injEq] at h
    exact ⟨[b], by rw [h.2]; rfl⟩

theorem cp_readU16le : ConsumesPrefix readU16le :=
  cp_bind (cp_readExact 2) (fun _ => cp_pure _)

theorem cp_readU32le : ConsumesPrefix readU32le :=
  cp_bind (cp_readExact 4) (fun _ => cp_pure _)

theorem cp_readU64le : ConsumesPrefix readU64le :=
  cp_bind (cp_readExact 8) (fun _ => cp_pure _)

theorem cp_readU32be : ConsumesPrefix readU32be :=
  cp_bind (cp_readExact 4) (fun _ => cp_pure _)

theorem cp_ite (c : Prop) [Decidable c] {m1 m2 : M α}
    (h1 : ConsumesPrefix m1) (h2 : ConsumesPrefix m2) :
    ConsumesPrefix (if c then m1 else m2) := by
  split
  · exact h1
  · exact h2

theorem cp_withTake (n : Nat) {p : M α} (hp : ConsumesPrefix p) :
    ConsumesPrefix (withTake n p) := by
  intro s a s' h
  unfold withTake at h
  split at h
  case h_1 b w heq =>
    simp only [Except.ok.injEq, Prod.mk.injEq] at h
    obtain ⟨pre, hpre⟩ := hp (s.take n) b w heq
    refine ⟨pre, ?_⟩
    rw [← h.2]
    conv_lhs => rw [← List.take_append_drop n s]
    rw [hpre, List.append_assoc]
  case h_2 => cases h

theorem cp_readUtf16Units (n : Nat) : ConsumesPrefix (readUtf16Units n) := by
  induction n with
  | zero => exact cp_pure _
  | succ n ih =>
    exact cp_bind cp_readU16le (fun _ => cp_bind ih (fun _ => cp_pure _))

theorem cp_tcidBody : ConsumesPrefix tcidBody := by
  unfold tcidBody
  refine cp_bind cp_readU32le (fun nameChars => ?_)
  refine cp_bind (cp_readUtf16Units nameChars) (fun units => ?_)
  cases fromUtf16 units with
  | none => exact cp_mthrow _
  | some name =>
    refine cp_bind cp_readU64le (fun cid => ?_)
    refine cp_bind cp_readU32le (fun projChars => ?_)
    refine cp_bind (cp_readUtf16Units projChars) (fun punits => ?_)
    cases fromUtf16 punits with
    | none => exact cp_mthrow _
    | some proj => exact cp_pure _

theorem cp_tcscBody : ConsumesPrefix tcscBody := by
  unfold tcscBody
  refine cp_bind cp_readU32le (fun len => ?_)
  refine cp_ite _ (cp_mthrow _) ?_
  refine cp_bind cp_readU8 (fun r => ?_)
  refine cp_bind cp_readU8 (fun g => ?_)
  refine cp_bind cp_readU8 (fun b => ?_)
  refine cp_bind cp_readU8 (fun a => ?_)
  exact cp_pure _

/-- The claim-side framing predicate for palette colors: each of the
count colors begins with the two zero header bytes and ends with the
raw big-endian word 0x79000000, except that the last color may
instead run to the end of the buffer (clean EOF). -/
def paletteColorBlocks : Nat → Bytes → Prop
  | 0, _ => True
  | c + 1, r =>
    (∃ body rest, r = 0 :: 0 :: (body ++ 0x79 :: 0 :: 0 :: 0 :: rest) ∧
      paletteColorBlocks c rest) ∨
    (c = 0 ∧ ∃ body, r = 0 :: 0 :: body)

/-- Prefix consumption for the TCID arm. -/
theorem cp_tcidArm : ConsumesPrefix (do
    let len ← readU32le
    withTake len tcidBody : M ColorData) :=
  cp_bind cp_readU32le (fun len => cp_withTake len cp_tcidBody)

/-- The color tag loop ends a color either by consuming the sentinel
word 0x79 00 00 00 (which then immediately precedes the unconsumed
remainder) or by consuming the stream to its end. -/
theorem colorTagLoop_exit : ∀ (fuel : Nat) (tags res : List ColorData)
    (s s' : Bytes), (∀ b ∈ s, b < 256) →
    colorTagLoop fuel tags s = .ok (res, s') →
    s' = [] ∨ ∃ pre, s = pre ++ 0x79 :: 0 :: 0 :: 0 :: s' := by
  intro fuel
  induction fuel with
  | zero => intro _ _ _ _ _ h; simp [colorTagLoop] at h
  | succ fuel ih =>
    intro tags res s s' hb h
    simp only [colorTagLoop] at h
    split at h
    case isTrue =>
      simp only [Except.ok.injEq, Prod.mk.injEq] at h
      exact Or.inl h.2.symm
    case isFalse hlen =>
    rcases s with _ | ⟨b0, s0⟩
    · simp at hlen
    rcases s0 with _ | ⟨b1, s0⟩
    · simp at hlen
    rcases s0 with _ | ⟨b2, s0⟩
    · simp at hlen
    rcases s0 with _ | ⟨b3, t⟩
    · simp at hlen
    simp only [readU32be_cons] at h
    split at h
    case isTrue htag =>
      simp only [Except.ok.injEq, Prod.mk.injEq] at h
      obtain ⟨-, hs⟩ := h
      subst hs
      have h0 : b0 = 0x79 ∧ b1 = 0 ∧ b2 = 0 ∧ b3 = 0 := by
        have e0 := hb b0 (by simp)
        have e1 := hb b1 (by simp)
        have e2 := hb b2 (by simp)
        have e3 := hb b3 (by simp)
        omega
      obtain ⟨rfl, rfl, rfl, rfl⟩ := h0
      exact Or.inr ⟨[], rfl⟩
    case isFalse =>
      split at h
      case isTrue =>
        split at h
        case h_1 => simp at h
        case h_2 c s2 heq =>
          obtain ⟨pre2, hpre2⟩ := cp_tcscBody t c s2 heq
          have hb2 : ∀ b ∈ s2, b < 256 := by
            intro b hbs
            exact hb b (by rw [hpre2]; simp [hbs])
          rcases ih (tags.concat c) res s2 s' hb2 h with h1 | ⟨pre, hpre⟩
          · exact Or.inl h1
          · refine Or.inr ⟨b0 :: b1 :: b2 :: b3 :: (pre2 ++ pre), ?_⟩
            rw [hpre2, hpre]
            simp
      case isFalse =>
        split at h
        case isTrue =>
          split at h
          case h_1 => simp at h
          case h_2 c s2 heq =>
            obtain ⟨pre2, hpre2⟩ := cp_tcidArm t c s2 heq
            have hb2 : ∀ b ∈ s2, b < 256 := by
              intro b hbs
              exact hb b (by rw [hpre2]; simp [hbs])
            rcases ih (tags.concat c) res s2 s' hb2 h with h1 | ⟨pre, hpre⟩
            · exact Or.inl h1
            · refine Or.inr ⟨b0 :: b1 :: b2 :: b3 :: (pre2 ++ pre), ?_⟩
              rw [hpre2, hpre]
              simp
        case isFalse => simp at h

/-- Success of the color loop forces the claimed framing: every color
begins with the two zero header bytes and ends with the sentinel
word, except that the last color may run to the buffer's end. -/
theorem colorLoop_blocks : ∀ (c : Nat) (s : Bytes) (res : List PaletteColor)
    (s' : Bytes), (∀ b ∈ s, b < 256) → colorLoop c s = .ok (res, s') →
    paletteColorBlocks c s := by
  intro c
  induction c with
  | zero => intro s res s' _ _; trivial
  | succ c ih =>
    intro s res s' hb h
    unfold colorLoop at h
    rcases s with _ | ⟨h0, s0⟩
    · simp [M.bind_apply, readU16le, readExact] at h
    rcases s0 with _ | ⟨h1, t⟩
    · simp [M.bind_apply, readU16le, readExact] at h
    simp only [M.bind_apply, readU16le_cons] at h
    split at h
    case isTrue => simp [mthrow] at h
    case isFalse hhdr =>
      have hz : h0 = 0 ∧ h1 = 0 := by omega
      obtain ⟨rfl, rfl⟩ := hz
      unfold runColorTags at h
      simp only [M.bind_apply] at h
      split at h
      case h_2 => simp at h
      case h_1 tags s2 heq =>
        have hbt : ∀ b ∈ t, b < 256 := fun b hbs => hb b (by simp [hbs])
        rcases colorTagLoop_exit _ [] tags t s2 hbt heq with hs2 | ⟨pre, hpre⟩
        · subst hs2
          cases c with
          | zero => exact Or.inr ⟨rfl, ⟨t, rfl⟩⟩
          | succ c2 =>
            simp [colorLoop, M.bind_apply, readU16le, readExact] at h
        · subst hpre
          refine Or.inl ⟨pre, s2, rfl, ?_⟩
          split at h
          case h_2 => simp at h
          case h_1 rest2 s3 heq2 =>
            have hbs2 : ∀ b ∈ s2, b < 256 := by
              intro b hbs
              exact hbt b (by simp [hbs])
            exact ih s2 rest2 s3 hbs2 heq2

/-- C8: a successful palette-buffer parse forces the framing of the
claim: the buffer begins with the u32 color count followed by the
u32 word 0x79, and the colors satisfy the block framing (zero header,
sentinel or clean EOF terminator). -/
theorem C8_palette_framing :
    ∀ (buf : Bytes) (pd : PaletteData), (∀ b ∈ buf, b < 256) →
    parsePaletteBuf buf = .ok pd →
    8 ≤ buf.length ∧ (buf.drop 4).take 4 = [0x79, 0, 0, 0] ∧
    paletteColorBlocks (leNat (buf.take 4)) (buf.drop 8) := by
  intro buf pd hb h
  unfold parsePaletteBuf at h
  rcases buf with _ | ⟨b0, r⟩
  · simp [M.bind_apply, readU32le, readExact] at h
  rcases r with _ | ⟨b1, r⟩
  · simp [M.bind_apply, readU32le, readExact] at h
  rcases r with _ | ⟨b2, r⟩
  · simp [M.bind_apply, readU32le, readExact] at h
  rcases r with _ | ⟨b3, r⟩
  · simp [M.bind_apply, readU32le, readExact] at h
  rcases r with _ | ⟨b4, r⟩
  · simp [M.bind_apply, readU32le_cons, readU32le, readExact] at h
  rcases r with _ | ⟨b5, r⟩
  · simp [M.bind_apply, readU32le_cons, readU32le, readExact] at h
  rcases r with _ | ⟨b6, r⟩
  · simp [M.bind_apply, readU32le_cons, readU32le, readExact] at h
  rcases r with _ | ⟨b7, t⟩
  · simp [M.bind_apply, readU32le_cons, readU32le, readExact] at h
  simp only [M.bind_apply, readU32le_cons] at h
  split at h
  case h_2 => simp at h
  case h_1 pd2 s2 hinner =>
    split at hinner
    case isTrue => simp [mthrow] at hinner
    case isFalse hend =>
      have hz : b4 = 0x79 ∧ b5 = 0 ∧ b6 = 0 ∧ b7 = 0 := by omega
      obtain ⟨rfl, rfl, rfl, rfl⟩ := hz
      refine ⟨by simp, by simp, ?_⟩
      have hcount : leNat ((b0 :: b1 :: b2 :: b3 :: 0x79 :: 0 :: 0 :: 0 ::
          t).take 4) = b0 + 256 * b1 + 65536 * b2 + 16777216 * b3 := by
        simp [leNat]
        ring
      rw [hcount]
      simp only [M.bind_apply] at hinner
      split at hinner
      case h_2 => simp at hinner
      case h_1 colors s3 hcolors =>
        have hbt : ∀ b ∈ t, b < 256 := fun b hbs => hb b (by simp [hbs])
        have := colorLoop_blocks _ t colors s3 hbt hcolors
        simpa using this

/-- C8 witness: a one-color palette buffer with an empty tag list. -/
theorem C8_palette_framing_witness :
    8 ≤ ([1, 0, 0, 0, 0x79, 0, 0, 0, 0, 0, 0x79, 0, 0, 0] : Bytes).length ∧
    (([1, 0, 0, 0, 0x79, 0, 0, 0, 0, 0, 0x79, 0, 0, 0] : Bytes).drop 4).take 4 =
      [0x79, 0, 0, 0] ∧
    paletteColorBlocks
      (leNat (([1, 0, 0, 0, 0x79, 0, 0, 0, 0, 0, 0x79, 0, 0, 0] : Bytes).take 4))
      (([1, 0, 0, 0, 0x79, 0, 0, 0, 0, 0, 0x79, 0, 0, 0] : Bytes).drop 8) :=
  C8_palette_framing [1, 0, 0, 0, 0x79, 0, 0, 0, 0, 0, 0x79, 0, 0, 0]
    ⟨[⟨[]⟩]⟩ (by decide) (by rfl)


/-- C9: once the declared shapes have been parsed, read_vector_layer
demands that the next 13 bytes equal the LAYER_TRAILER sentinel
exactly: a match succeeds consuming precisely those 13 bytes, any
byte mismatch is the fatal unexpected-layer-trailer error, and a
short read is the fatal unexpected-EOF error, so the layer parse
never succeeds past a mutated trailer. -/
theorem C9_layer_trailer :
    ∀ (n : Nat) (s : Bytes) (shapes : List VectorShape) (r : Bytes),
    shapeLoop n s = .ok (shapes, r) →
    (13 ≤ r.length ∧ r.take 13 = LAYER_TRAILER →
      vectorLayerTail n s = .ok (.vector shapes, r.drop 13)) ∧
    (13 ≤ r.length ∧ r.take 13 ≠ LAYER_TRAILER →
      vectorLayerTail n s = .error (.unknownMystery
        ("unexpected layer trailer: " ++ toString (r.take 13)))) ∧
    (r.length < 13 → vectorLayerTail n s = .error .ioEof) := by
  intro n s shapes r h
  refine ⟨?_, ?_, ?_⟩
  · rintro ⟨hlen, htr⟩
    simp only [vectorLayerTail, M.bind_apply, h, readExact, if_pos hlen,
      ite_apply]
    rw [if_neg (by simp [htr])]
    rfl
  · rintro ⟨hlen, htr⟩
    simp only [vectorLayerTail, M.bind_apply, h, readExact, if_pos hlen,
      ite_apply]
    rw [if_pos htr]
    rfl
  · intro hlen
    simp only [vectorLayerTail, M.bind_apply, h, readExact,
      if_neg (show ¬ 13 ≤ r.length by omega)]

/-- C9 witness: with no shapes and exactly the sentinel remaining, the
tail succeeds and consumes the 13 bytes. -/
theorem C9_layer_trailer_witness :
    13 ≤ LAYER_TRAILER.length ∧ LAYER_TRAILER.take 13 = LAYER_TRAILER ∧
    vectorLayerTail 0 LAYER_TRAILER =
      .ok (.vector [], LAYER_TRAILER.drop 13) :=
  ⟨by decide, by decide,
    (C9_layer_trailer 0 LAYER_TRAILER [] LAYER_TRAILER rfl).1
      ⟨by decide, by decide⟩⟩


/-- C10: the decoder is not total — both checked u32 subtractions
named by the claim can underflow on reachable inputs, which panics
the Rust decoder in debug builds (and silently wraps in release
builds) instead of returning a ReadError.  A TGSD Fill record with
sub-flag 0x01 and declared length 2 < 24 underflows len - 24, and an
opcode stream whose first three bits decode a Cubic under a point
budget of 1 underflows points_left -= 3. -/
theorem C10_no_underflow_refuted :
    readTgsd [2, 0, 0, 0, 0, 1] =
      .error (.panic ("attempt to subtract with overflow")) ∧
    pathSegmentTypeRead 1 [4] =
      .error (.panic ("attempt to subtract with overflow")) := by
  constructor
  · rfl
  · rfl


/-- The twelve top-level file tags (read.rs lines 74-102). -/
inductive FileTag : Type
  | cert : FileTag
  | mainData : FileTag
  | endt : FileTag
  | tvci : FileTag
  | crea : FileTag
  | layerUnderlay : FileTag
  | layerColor : FileTag
  | layerLine : FileTag
  | layerOverlay : FileTag
  | palette : FileTag
  | ttoc : FileTag
  | sign : FileTag
deriving DecidableEq, Repr

/-- FileTag::try_from on the u32 discriminant. -/
def FileTag.tryFrom (t : Nat) : Option FileTag :=
  if t = 0x43455254 then some .cert
  else if t = 0x00000000 then some .mainData
  else if t = 0x454e4454 then some .endt
  else if t = 0x54564349 then some .tvci
  else if t = 0x43524541 then some .crea
  else if t = 0x74554141 then some .layerUnderlay
  else if t = 0x74434141 then some .layerColor
  else if t = 0x744c4141 then some .layerLine
  else if t = 0x744f4141 then some .layerOverlay
  else if t = 0x5450414c then some .palette
  else if t = 0x54544f43 then some .ttoc
  else if t = 0x5349474e then some .sign
  else none

/-- Strict UTF-8 decoding (String::from_utf8 and CString::into_string):
rejects overlong forms, surrogates and out-of-range sequences. -/
def utf8Chars : List Nat → Option (List Char)
  | [] => some []
  | b :: rest =>
    if b < 0x80 then (utf8Chars rest).map (fun cs => Char.ofNat b :: cs)
    else if b < 0xC2 then none
    else if b < 0xE0 then
      match rest with
      | b1 :: rest2 =>
        if 0x80 ≤ b1 ∧ b1 < 0xC0 then
          (utf8Chars rest2).map
            (fun cs => Char.ofNat ((b - 0xC0) * 64 + (b1 - 0x80)) :: cs)
        else none
      | _ => none
    else if b < 0xF0 then
      match rest with
      | b1 :: b2 :: rest2 =>
        if (if b = 0xE0 then 0xA0 else 0x80) ≤ b1 ∧
            b1 ≤ (if b = 0xED then 0x9F else 0xBF) ∧
            0x80 ≤ b2 ∧ b2 < 0xC0 then
          (utf8Chars rest2).map
            (fun cs => Char.ofNat ((b - 0xE0) * 4096 + (b1 - 0x80) * 64 +
              (b2 - 0x80)) :: cs)
        else none
      | _ => none
    else if b < 0xF5 then
      match rest with
      | b1 :: b2 :: b3 :: rest2 =>
        if (if b = 0xF0 then 0x90 else 0x80) ≤ b1 ∧
            b1 ≤ (if b = 0xF4 then 0x8F else 0xBF) ∧
            0x80 ≤ b2 ∧ b2 < 0xC0 ∧ 0x80 ≤ b3 ∧ b3 < 0xC0 then
          (utf8Chars rest2).map
            (fun cs => Char.ofNat ((b - 0xF0) * 262144 +
              (b1 - 0x80) * 4096 + (b2 - 0x80) * 64 + (b3 - 0x80)) :: cs)
        else none
      | _ => none
    else none

/-- String::from_utf8 as an Option. -/
def utf8Decode (l : Bytes) : Option String :=
  (utf8Chars l).map (fun cs => String.mk cs)

/-- BufRead::read_until(0): everything up to and including the first
nul byte, or the whole rest of the stream if there is none. -/
def readUntilNulAux : Bytes → Bytes × Bytes
  | [] => ([], [])
  | b :: rest =>
    if b = 0 then ([b], rest)
    else
      let p := readUntilNulAux rest
      (b :: p.1, p.2)

/-- The reader form of read_until(0); it never fails. -/
def readUntilNul : M Bytes := fun s => .ok (readUntilNulAux s)

/-- CString::from_vec_with_nul: the vector must end with its only nul
byte, which is stripped. -/
def cstringFromVecWithNul (l : Bytes) : Option Bytes :=
  if l.getLast? = some 0 ∧ ¬ l.dropLast.contains 0 then some l.dropLast
  else none

/-- FileData (read.rs lines 114-133), the decoded top-level records. -/
inductive FileData : Type
  | certificate (s : String) : FileData
  | signature (data : Bytes) : FileData
  | crea (v : Nat) : FileData
  | endt : FileData
  | main (tags : List FileData) : FileData
  | mainOffsets (offsets : List (FileTag × Nat)) : FileData
  | identity (device software : String) : FileData
  | layerUnderlay (l : LayerData) : FileData
  | layerColor (l : LayerData) : FileData
  | layerLine (l : LayerData) : FileData
  | layerOverlay (l : LayerData) : FileData
  | palette (p : PaletteData) : FileData

/-- Run a sub-parse on a freshly decoded buffer (io::Cursor::new(data))
without touching the main stream; leftover buffer bytes are dropped. -/
def runBuf (p : M α) (data : Bytes) : M α := fun s =>
  match p data with
  | .ok (a, _) => .ok (a, s)
  | .error e => .error e

/-- The TTOC offset-table loop (read.rs lines 233-243). -/
def ttocLoop : Nat → List (FileTag × Nat) → M (List (FileTag × Nat))
  | 0, acc => pure acc
  | n + 1, acc => do
    let t ← readU32be
    match FileTag.tryFrom t with
    | none => mthrow (.unknownFileTag t)
    | some tag => do
      let offset ← readU32le
      ttocLoop n (acc.concat (tag, offset))

/-- read_tag (read.rs lines 152-258).  The main-data branch runs the
given continuation (the tag loop one fuel step down) on the decoded
buffer.  The layer and palette branches use the sibling
implementations embedded above; the tvg crate's own layer, palette
and util modules are absent from this source snapshot, so the
same-repository generation in src/src stands in for them. -/
def readTagF (recur : M (List FileData)) : M FileData := do
  let tag ← readU32be
  match FileTag.tryFrom tag with
  | none => mthrow (.unknownFileTag tag)
  | some .cert => do
    let len ← readU32le
    withTake len (do
      let thing ← readU32le
      if thing ≠ 1 then
        mthrow (.unknownMystery
          ("unexpected CERT header bytes: " ++ toString thing ++
            " (expected 1)"))
      else do
        let certLen ← readU32le
        let cert ← readExact certLen
        match utf8Decode cert with
        | none => mthrow (.utf8Error ("certificate"))
        | some str => pure (.certificate str))
  | some .mainData => do
    let data ← readEncodedData
    let tags ← runBuf recur data
    pure (.main tags)
  | some .endt => pure .endt
  | some .crea => do
    let data ← readEncodedData
    let thing ← runBuf readU32le data
    if thing ≠ 2 then
      mthrow (.unknownMystery
        ("unexpected CREA value: " ++ toString thing ++ " (expected 2)"))
    else pure (.crea thing)
  | some .tvci => do
    let data ← readEncodedData
    runBuf (do
      let _ ← readExact 13
      let deviceRaw ← readUntilNul
      let nameRaw ← readUntilNul
      match cstringFromVecWithNul deviceRaw with
      | none => mthrow (.cstringError ("tvci device"))
      | some d =>
        match utf8Decode d with
        | none => mthrow (.utf8Error ("tvci device"))
        | some device =>
          match cstringFromVecWithNul nameRaw with
          | none => mthrow (.cstringError ("tvci software name"))
          | some n =>
            match utf8Decode n with
            | none => mthrow (.utf8Error ("tvci software name"))
            | some name => pure (.identity device name)) data
  | some .layerUnderlay => do
    let l ← readLayerData
    pure (.layerUnderlay l)
  | some .layerColor => do
    let l ← readLayerData
    pure (.layerColor l)
  | some .layerLine => do
    let l ← readLayerData
    pure (.layerLine l)
  | some .layerOverlay => do
    let l ← readLayerData
    pure (.layerOverlay l)
  | some .palette => do
    let p ← readPaletteData
    pure (.palette p)
  | some .ttoc => do
    let count ← readU32le
    let offsets ← ttocLoop count []
    let _ ← readExact 8
    pure (.mainOffsets offsets)
  | some .sign => do
    let data ← readExact 74
    pure (.signature data)

/-- read_tags (read.rs lines 135-150): repeat read_tag; ANY
unexpected-EOF io error breaks the loop successfully with the records
accumulated so far (the FIXME on line 144 notes that EOF mid-record is
not distinguished from EOF at a tag boundary).  The cursor position at
the catch is not observable in the Rust result; the model returns the
stream as it stood before the failing read_tag call. -/
def readTagsLoop : Nat → List FileData → M (List FileData)
  | 0, _ => fun _ => .error .fuelOut
  | fuel + 1, acc => fun s =>
    match readTagF (readTagsLoop fuel []) s with
    | .ok (tag, s2) => readTagsLoop fuel (acc.concat tag) s2
    | .error .ioEof => .ok (acc, s)
    | .error e => .error e

/-- read (read.rs lines 44-72): magic, version 1009, the mystery pair
(2, 1), then the tag loop over the remaining stream. -/
def readFile (s : Bytes) : Except ReadError (List FileData) :=
  match (do
      let magic ← readExact 8
      if magic ≠ [0x4f, 0x54, 0x56, 0x47, 0x66, 0x75, 0x6c, 0x6c] then
        mthrow (.unexpectedMagic magic)
      else do
        let version ← readU32le
        if version ≠ 1009 then mthrow (.unexpectedVersion version)
        else do
          let thing1 ← readU32le
          let thing2 ← readU32le
          if thing1 ≠ 2 ∨ thing2 ≠ 1 then
            mthrow (.unknownMystery
              ("unexpected mystery values after the TVG version: " ++
                toString thing1 ++ ", " ++ toString thing2 ++
                " (expected 2, 1)"))
          else fun s2 => readTagsLoop (s2.length + 1) [] s2 :
      M (List FileData)) s with
  | .ok (tags, _) => .ok tags
  | .error e => .error e


/-- C1: the first half of the claim holds — an unexpected-EOF while
reading a fresh four-byte tag at the top level (fewer than 4 bytes
remain) terminates the tag loop normally with the records accumulated
so far.  The second half is refuted: an unexpected-EOF inside a
record's payload is caught by the very same catch, so a file whose
final SIGN record is truncated mid-payload returns the partial
document [Endt] instead of a fatal error. -/
theorem C1_eof_handling :
    (∀ (fuel : Nat) (acc : List FileData) (s : Bytes), 1 ≤ fuel →
      s.length < 4 → readTagsLoop fuel acc s = .ok (acc, s)) ∧
    readFile [0x4f, 0x54, 0x56, 0x47, 0x66, 0x75, 0x6c, 0x6c,
      0xf1, 0x03, 0, 0, 2, 0, 0, 0, 1, 0, 0, 0,
      0x45, 0x4e, 0x44, 0x54, 0x53, 0x49, 0x47, 0x4e] = .ok [.endt] := by
  constructor
  · intro fuel acc s hf hs
    match fuel, hf with
    | fuel + 1, _ =>
      have h4 : ¬ 4 ≤ s.length := by omega
      simp [readTagsLoop, readTagF, M.bind_apply, readU32be, readExact, h4]
  · rfl

/-- C1 witness: with fuel left and three stray bytes at a tag
boundary, the loop ends cleanly keeping the accumulated record. -/
theorem C1_eof_handling_witness :
    readTagsLoop 5 [FileData.endt] [1, 2, 3] =
      .ok ([FileData.endt], [1, 2, 3]) :=
  C1_eof_handling.1 5 [FileData.endt] [1, 2, 3] (by decide) (by decide)

end Tvg
